import Mathlib

set_option maxHeartbeats 1600000

namespace HeatData

/-! ## Python value model

Shallow embedding of the Python runtime values that can appear in an
openpyxl worksheet cell (with `load_workbook(..., data_only=True)` a cell
value is `None`, `str`, `int`, `float`, `bool`, `datetime`, `date` or
`time`), together with the conversion primitives used by
`src/import.py`: `str()`, `int()`, `float()`, truthiness,
`str.strip()`, and the `datetime.strptime` formats `"%Y-%m-%d"`,
`"%Y-%m-%d %H:%M:%S"` and `"%H:%M"`.  Binary floating point is
abstracted by exact rationals plus `inf`/`-inf`/`nan`; no claim in this
development depends on rounding, decimal rendering of floats, or
overflow of huge decimal literals to infinity. -/

structure Date where
  year : Nat
  month : Nat
  day : Nat
  deriving DecidableEq, Repr

structure Tod where
  hour : Nat
  minute : Nat
  second : Nat
  deriving DecidableEq, Repr

structure PyDateTime where
  year : Nat
  month : Nat
  day : Nat
  hour : Nat
  minute : Nat
  second : Nat
  deriving DecidableEq, Repr

/-- `datetime.date()`: the date component of a datetime value. -/
def PyDateTime.dateOf (dt : PyDateTime) : Date :=
  ⟨dt.year, dt.month, dt.day⟩

/-- An exact decimal value `mant * 10 ^ expo` (not normalized; every
value `float()` accepts from a spreadsheet cell or string literal is a
finite decimal, so this is exact). -/
structure Dec where
  mant : Int
  expo : Int
  deriving DecidableEq, Repr

/-- A Python float: a finite value (modelled exactly as a decimal) or
one of the special values.  Equality of `Dec` is representational;
no claim compares float values produced by different spellings. -/
inductive PyFloat where
  | finite (d : Dec)
  | inf
  | negInf
  | nan
  deriving DecidableEq, Repr

/-- One worksheet cell value as returned by openpyxl. `null` is Python
`None` (an absent cell). -/
inductive Cell where
  | null
  | str (s : String)
  | int (n : Int)
  | float (f : PyFloat)
  | bool (b : Bool)
  | datetime (dt : PyDateTime)
  | date (d : Date)
  | time (t : Tod)
  deriving DecidableEq, Repr

/-- The data interpolated into the `ValueError` messages raised by
`src/import.py`; message strings are abstracted to the constructor that
raises them plus the interpolated values. -/
inductive ErrInfo where
  | tabPattern (name : String)
  | tabDateBad (dstr name : String)
  | tabTimeBad (isStart : Bool) (tstr name : String)
  | headerMismatch (expected found : List Cell) (title : String)
  | timestampBad (s : String)
  | floatLit (s : String)
  | intLit (s : String)
  | nanToInt
  | dateOnlyBad (s : String)
  | tbFormat (v : String)
  | tbParse (v : String)
  deriving DecidableEq, Repr

/-- The exception classes that the transformation code can raise.  The
`except ValueError` handlers in `main` catch only the first constructor;
`TypeError` (from `int()`/`float()` on a date/time/None value) and
`OverflowError` (from `int()` on an infinite float) propagate out of
them. -/
inductive PyErr where
  | valueError (i : ErrInfo)
  | typeError
  | overflowError
  deriving DecidableEq, Repr

/-- Python `str.strip()` whitespace and the regex class `\s` (ASCII part). -/
def isPySpace (c : Char) : Bool :=
  c == ' ' || c == '\t' || c == '\n' || c == '\r' || c == '\x0b' || c == '\x0c'

/-- Numeric value of a digit character. -/
def d2n (c : Char) : Nat := c.toNat - 48

/-- The character for the digit `d % 10`. -/
def digitChar (d : Nat) : Char := Char.ofNat (48 + d % 10)

/-- Two-digit zero-padded rendering, as produced by Python `"%02d"`. -/
def pad2 (n : Nat) : List Char := [digitChar (n / 10 % 10), digitChar (n % 10)]

/-- Four-digit zero-padded rendering, as produced by Python `"%04d"`. -/
def pad4 (n : Nat) : List Char :=
  [digitChar (n / 1000 % 10), digitChar (n / 100 % 10), digitChar (n / 10 % 10),
    digitChar (n % 10)]

/-- Value of a digit string, most significant digit first. -/
def digitsVal (cs : List Char) : Nat := cs.foldl (fun a c => 10 * a + d2n c) 0

/-- Python `str.strip()` on a character list. -/
def pyStrip (cs : List Char) : List Char :=
  ((cs.dropWhile isPySpace).reverse.dropWhile isPySpace).reverse

/-- Python truthiness of a cell value (`if cell_value:`).  `0`, `0.0`,
`""`, `False` and `None` are falsy; datetime/date/time objects are
always truthy. -/
def pyTruthy (c : Cell) : Bool :=
  match c with
  | Cell.null => false
  | Cell.str s => !(s == "")
  | Cell.int n => !(n == 0)
  | Cell.float (PyFloat.finite d) => !(d.mant == 0)
  | Cell.float _ => true
  | Cell.bool b => b
  | Cell.datetime _ => true
  | Cell.date _ => true
  | Cell.time _ => true

/-- `str(date)`: ISO rendering `YYYY-MM-DD`. -/
def dateChars (d : Date) : List Char :=
  pad4 d.year ++ '-' :: pad2 d.month ++ '-' :: pad2 d.day

/-- `str(time)`: rendering `HH:MM:SS` (microseconds are always zero here). -/
def todChars (t : Tod) : List Char :=
  pad2 t.hour ++ ':' :: pad2 t.minute ++ ':' :: pad2 t.second

/-- `str(datetime)`: rendering `YYYY-MM-DD HH:MM:SS`. -/
def dtChars (dt : PyDateTime) : List Char :=
  pad4 dt.year ++ '-' :: pad2 dt.month ++ '-' :: pad2 dt.day ++ ' ' ::
    (pad2 dt.hour ++ ':' :: pad2 dt.minute ++ ':' :: pad2 dt.second)

/-- Rendering of a float.  The exact decimal shortest-repr of a binary
float is abstracted (no claim inspects it); the special values match
Python. -/
def floatStr (f : PyFloat) : String :=
  match f with
  | PyFloat.inf => "inf"
  | PyFloat.negInf => "-inf"
  | PyFloat.nan => "nan"
  | PyFloat.finite d => toString d.mant ++ "e" ++ toString d.expo

/-- Python `str()` of a cell value. -/
def pyStr (c : Cell) : String :=
  match c with
  | Cell.null => "None"
  | Cell.str s => s
  | Cell.int n => toString n
  | Cell.float f => floatStr f
  | Cell.bool b => if b then "True" else "False"
  | Cell.datetime dt => String.mk (dtChars dt)
  | Cell.date d => String.mk (dateChars d)
  | Cell.time t => String.mk (todChars t)

/-! ### Python `int()` and `float()` on strings

Both accept surrounding whitespace, an optional sign, and underscores
standing strictly between digits (`int("1_0") = 10`, `int("1_")` and
`int("_1")` raise `ValueError`). -/

/-- Consume a run of digits possibly separated by single underscores,
returning the digits and the unconsumed rest.  Called after at least one
digit has been seen. -/
def runAfterDigit : List Char → List Char × List Char
  | '_' :: c :: cs =>
    if c.isDigit then
      let p := runAfterDigit cs
      (c :: p.1, p.2)
    else ([], '_' :: c :: cs)
  | c :: cs =>
    if c.isDigit then
      let p := runAfterDigit cs
      (c :: p.1, p.2)
    else ([], c :: cs)
  | [] => ([], [])

/-- Take a nonempty underscore-separated digit run. -/
def takeDigitRun (cs : List Char) : Option (List Char × List Char) :=
  match cs with
  | c :: cs =>
    if c.isDigit then
      let p := runAfterDigit cs
      some (c :: p.1, p.2)
    else none
  | [] => none

/-- The digits of an integer literal (everything after the sign), which
must make up the whole remaining input. -/
def pyIntCore (cs : List Char) : Option Int :=
  match takeDigitRun cs with
  | some (ds, []) => some (Int.ofNat (digitsVal ds))
  | _ => none

/-- Python `int(s)` on a string (base 10). -/
def pyIntOfString (s : String) : Option Int :=
  match pyStrip s.data with
  | '+' :: r => pyIntCore r
  | '-' :: r => (pyIntCore r).map (fun n => -n)
  | r => pyIntCore r

/-- An optional exponent suffix `e[sign]digits`, which must end the
input; absent exponent is `0`. -/
def expTail (cs : List Char) : Option Int :=
  match cs with
  | [] => some 0
  | e :: r =>
    if e == 'e' || e == 'E' then
      match r with
      | '+' :: r2 =>
        match takeDigitRun r2 with
        | some (ds, []) => some (Int.ofNat (digitsVal ds))
        | _ => none
      | '-' :: r2 =>
        match takeDigitRun r2 with
        | some (ds, []) => some (-Int.ofNat (digitsVal ds))
        | _ => none
      | r2 =>
        match takeDigitRun r2 with
        | some (ds, []) => some (Int.ofNat (digitsVal ds))
        | _ => none
    else none

/-- The decimal with integer digits `ds`, fractional digits `fs` and
exponent `e`. -/
def mkDec (ds fs : List Char) (e : Int) : Dec :=
  ⟨Int.ofNat (digitsVal ds * 10 ^ fs.length + digitsVal fs), e - Int.ofNat fs.length⟩

/-- A float literal body: `D[.D?][exp]` or `.D[exp]` where `D` is an
underscore-separated digit run. -/
def floatNumeric (cs : List Char) : Option Dec :=
  match cs with
  | '.' :: r =>
    match takeDigitRun r with
    | some (fs, rest) => (expTail rest).map (fun e => mkDec [] fs e)
    | none => none
  | _ =>
    match takeDigitRun cs with
    | some (ds, rest) =>
      match rest with
      | '.' :: r2 =>
        match takeDigitRun r2 with
        | some (fs, rest2) => (expTail rest2).map (fun e => mkDec ds fs e)
        | none => (expTail r2).map (fun e => mkDec ds [] e)
      | _ => (expTail rest).map (fun e => mkDec ds [] e)
    | none => none

/-- A float literal body after the sign: the special spellings or a
numeric literal. -/
def floatBody (neg : Bool) (cs : List Char) : Option PyFloat :=
  let low := cs.map Char.toLower
  if low = "inf".data || low = "infinity".data then
    some (if neg then PyFloat.negInf else PyFloat.inf)
  else if low = "nan".data then some PyFloat.nan
  else
    match floatNumeric cs with
    | some d => some (PyFloat.finite (if neg then ⟨-d.mant, d.expo⟩ else d))
    | none => none

/-- Python `float(s)` on a string. -/
def pyFloatOfString (s : String) : Option PyFloat :=
  match pyStrip s.data with
  | '+' :: r => floatBody false r
  | '-' :: r => floatBody true r
  | r => floatBody false r

/-- Truncation toward zero, the behaviour of Python `int()` on a finite
float. -/
def pyTrunc (d : Dec) : Int :=
  if 0 ≤ d.expo then d.mant * 10 ^ d.expo.toNat
  else Int.tdiv d.mant (Int.ofNat (10 ^ (-d.expo).toNat))

/-- Python `int(x)` on a cell value.  Strings parse as integer literals
(`ValueError` otherwise); bools and finite floats convert; `nan` raises
`ValueError`, infinities raise `OverflowError`; `None` and
datetime/date/time values raise `TypeError`. -/
def pyInt (c : Cell) : Except PyErr Int :=
  match c with
  | Cell.str s =>
    match pyIntOfString s with
    | some n => Except.ok n
    | none => Except.error (PyErr.valueError (ErrInfo.intLit s))
  | Cell.int n => Except.ok n
  | Cell.bool b => Except.ok (if b then 1 else 0)
  | Cell.float (PyFloat.finite d) => Except.ok (pyTrunc d)
  | Cell.float PyFloat.nan => Except.error (PyErr.valueError ErrInfo.nanToInt)
  | Cell.float _ => Except.error PyErr.overflowError
  | _ => Except.error PyErr.typeError

/-- Python `float(x)` on a cell value. -/
def pyFloatCell (c : Cell) : Except PyErr PyFloat :=
  match c with
  | Cell.str s =>
    match pyFloatOfString s with
    | some f => Except.ok f
    | none => Except.error (PyErr.valueError (ErrInfo.floatLit s))
  | Cell.int n => Except.ok (PyFloat.finite ⟨n, 0⟩)
  | Cell.bool b => Except.ok (PyFloat.finite (if b then ⟨1, 0⟩ else ⟨0, 0⟩))
  | Cell.float f => Except.ok f
  | _ => Except.error PyErr.typeError

/-! ### `datetime.strptime` models

Python's `_strptime` compiles a format into a regex using
`'Y': \d\d\d\d`, `'m': 1[0-2]|0[1-9]|[1-9]`, `'d': 3[01]|[12]\d|0[1-9]|[1-9]`,
`'H': 2[0-3]|[0-1]\d|\d`, `'M'`/`'S': [0-5]\d|\d`, literal characters
matched verbatim and whitespace in the format replaced by `\s+`; after a
match it rejects the input if unconverted characters remain, then the
`datetime` constructor validates the day against the month length and
the year against `MINYEAR = 1`.  Each numeric field is modelled as "a
valid two-digit alternative, else a one-digit alternative", combined
with `altOr`, which reproduces the regex's greedy-with-backtracking
choice (a digit can never match the literal separator that follows a
field, so no other backtracking can succeed). -/

/-- Left-biased choice between parse alternatives (regex `|`). -/
def altOr {α : Type} (a b : Option α) : Option α :=
  match a with
  | some x => some x
  | none => b

/-- Gregorian leap-year rule, as in Python `calendar`/`datetime`. -/
def isLeap (y : Nat) : Bool := (y % 4 == 0 && y % 100 != 0) || y % 400 == 0

/-- Length of a month (only consulted for `1 ≤ m ≤ 12`). -/
def daysInMonth (y m : Nat) : Nat :=
  if m == 2 then (if isLeap y then 29 else 28)
  else if m == 4 || m == 6 || m == 9 || m == 11 then 30
  else 31

/-- A numeric strptime field: two digits forming a value accepted by
`ok2`, or (backtracking) one digit accepted by `ok1`; the continuation
`k` receives the value and the rest. -/
def field2 {α : Type} (ok2 ok1 : Nat → Bool) (k : Nat → List Char → Option α)
    (cs : List Char) : Option α :=
  altOr
    (match cs with
     | a :: b :: r =>
       if a.isDigit && b.isDigit && ok2 (10 * d2n a + d2n b) then
         k (10 * d2n a + d2n b) r
       else none
     | _ => none)
    (match cs with
     | a :: r => if a.isDigit && ok1 (d2n a) then k (d2n a) r else none
     | _ => none)

/-- A literal character in a strptime format. -/
def lit {α : Type} (c : Char) (k : List Char → Option α) : List Char → Option α
  | x :: r => if x == c then k r else none
  | [] => none

/-- Whitespace in a strptime format: `\s+`, consumed greedily (always
followed by a digit field here, so greedy consumption is exact). -/
def spaces1 {α : Type} (k : List Char → Option α) : List Char → Option α
  | x :: r => if isPySpace x then k (r.dropWhile isPySpace) else none
  | [] => none

/-- The `%Y` field: exactly four digits. -/
def year4 {α : Type} (k : Nat → List Char → Option α) : List Char → Option α
  | a :: b :: c :: d :: r =>
    if a.isDigit && b.isDigit && c.isDigit && d.isDigit then
      k (digitsVal [a, b, c, d]) r
    else none
  | _ => none

def okM2 (v : Nat) : Bool := decide (1 ≤ v) && decide (v ≤ 12)

def okM1 (v : Nat) : Bool := decide (1 ≤ v)

def okD2 (v : Nat) : Bool := decide (1 ≤ v) && decide (v ≤ 31)

def okH2 (v : Nat) : Bool := decide (v ≤ 23)

def okMS2 (v : Nat) : Bool := decide (v ≤ 59)

def okAny1 (_ : Nat) : Bool := true

/-- `datetime.strptime(s, "%Y-%m-%d").date()` including constructor
validation. -/
def dateParse (cs : List Char) : Option Date :=
  year4 (fun y =>
    lit '-' (field2 okM2 okM1 (fun mo =>
      lit '-' (field2 okD2 okM1 (fun dy rest =>
        if rest.isEmpty && decide (1 ≤ y) && decide (dy ≤ daysInMonth y mo) then
          some ⟨y, mo, dy⟩
        else none))))) cs

/-- `datetime.strptime(s, "%Y-%m-%d %H:%M:%S")` including constructor
validation. -/
def tsParse (cs : List Char) : Option PyDateTime :=
  year4 (fun y =>
    lit '-' (field2 okM2 okM1 (fun mo =>
      lit '-' (field2 okD2 okM1 (fun dy =>
        spaces1 (field2 okH2 okAny1 (fun h =>
          lit ':' (field2 okMS2 okAny1 (fun mi =>
            lit ':' (field2 okMS2 okAny1 (fun se rest =>
              if rest.isEmpty && decide (1 ≤ y) && decide (dy ≤ daysInMonth y mo) then
                some ⟨y, mo, dy, h, mi, se⟩
              else none))))))))))) cs

/-- The minute field of `"%H:%M"`, which ends the input: two digits
`00`–`59`, or one digit. -/
def hmTail (cs : List Char) : Option Nat :=
  altOr
    (match cs with
     | [a, b] =>
       if a.isDigit && b.isDigit && decide (10 * d2n a + d2n b ≤ 59) then
         some (10 * d2n a + d2n b)
       else none
     | _ => none)
    (match cs with
     | [a] => if a.isDigit then some (d2n a) else none
     | _ => none)

/-- `datetime.strptime(s, "%H:%M").time()`: hour of one digit or two
digits `00`–`23`, the literal colon, then `hmTail`. -/
def hmParse (cs : List Char) : Option Tod :=
  altOr
    (match cs with
     | a :: b :: c :: r =>
       if a.isDigit && b.isDigit && (c == ':') && decide (10 * d2n a + d2n b ≤ 23) then
         (hmTail r).map (fun m => ⟨10 * d2n a + d2n b, m, 0⟩)
       else none
     | _ => none)
    (match cs with
     | a :: c :: r =>
       if a.isDigit && (c == ':') then (hmTail r).map (fun m => ⟨d2n a, m, 0⟩) else none
     | _ => none)

/-! ## `parse_time_block` (src/import.py lines 109-133) -/

/-- `s[:2] + ':' + s[2:]`, the colon insertion for a bare `HHMM` token. -/
def insertColonAfter2 (cs : List Char) : List Char := cs.take 2 ++ ':' :: cs.drop 2

/-- Split at the first occurrence of `sep` (`str.split(sep, 1)` when the
separator occurs). -/
def splitFirst (sep : Char) : List Char → Option (List Char × List Char)
  | [] => none
  | c :: cs =>
    if c == sep then some ([], cs)
    else (splitFirst sep cs).map (fun p => (c :: p.1, p.2))

/-- The inner `parse_hhmm` after the strip: when the token has no colon
and exactly four characters, insert a colon after the first two; then
`strptime "%H:%M"`. -/
def parse_hhmm_core (s : List Char) : Option Tod :=
  hmParse (if !(s.contains ':') && s.length == 4 then insertColonAfter2 s else s)

/-- The inner `parse_hhmm`: strip the token, then `parse_hhmm_core`. -/
def parse_hhmm (cs : List Char) : Option Tod := parse_hhmm_core (pyStrip cs)

/-- `parse_time_block`: reject a falsy (empty) value or one without a
dash; split at the first dash and parse both tokens. -/
def parse_time_block (v : String) : Except PyErr (Tod × Tod) :=
  if v == "" then Except.error (PyErr.valueError (ErrInfo.tbFormat v))
  else
    match splitFirst '-' v.data with
    | none => Except.error (PyErr.valueError (ErrInfo.tbFormat v))
    | some (s, e) =>
      match parse_hhmm s with
      | none => Except.error (PyErr.valueError (ErrInfo.tbParse v))
      | some t1 =>
        match parse_hhmm e with
        | none => Except.error (PyErr.valueError (ErrInfo.tbParse v))
        | some t2 => Except.ok (t1, t2)

/-! ## `parse_tab_name` (src/import.py lines 39-88)

`TAB_NAME_REGEX = ^(\d{4}-\d{2}-\d{2})\s+(\d{4})-(\d{4})\s+(.+)$`,
matched against `tab_name.strip()`.  The matcher below consumes each
`\s+` greedily, which is exact on whitespace-stripped input because
every `\s+` is followed by `\d{4}` (disjoint from `\s`) or by `(.+)$`
whose last character is the stripped input's non-whitespace last
character.  `(.+)$` matches a nonempty newline-free tail, or (in `re`,
via `$` before a final newline) such a tail followed by one newline —
 impossible after stripping but modelled for faithfulness. -/

/-- Exactly `n` digits. -/
def takeDigitsN : Nat → List Char → Option (List Char × List Char)
  | 0, cs => some ([], cs)
  | _ + 1, [] => none
  | n + 1, c :: cs =>
    if c.isDigit then
      match takeDigitsN n cs with
      | some p => some (c :: p.1, p.2)
      | none => none
    else none

/-- `\s+`, consumed greedily. -/
def dropSpaces1 : List Char → Option (List Char)
  | c :: cs => if isPySpace c then some (cs.dropWhile isPySpace) else none
  | [] => none

/-- A single literal character of the regex. -/
def expectChar (c : Char) : List Char → Option (List Char)
  | x :: r => if x == c then some r else none
  | [] => none

/-- The final `(.+)$` group of the tab-name regex. -/
def lastLineGroup (cs : List Char) : Option (List Char) :=
  if cs.contains '\n' then
    match cs.reverse with
    | '\n' :: revy =>
      if !(revy.reverse.isEmpty) && !(revy.reverse.contains '\n') then some revy.reverse
      else none
    | _ => none
  else if cs.isEmpty then none else some cs

/-- The four capture groups of `TAB_NAME_REGEX` on an (already
stripped) input, or `none` when the regex does not match. -/
def tabNameMatch (cs : List Char) : Option (List Char × List Char × List Char × List Char) :=
  match takeDigitsN 4 cs with
  | none => none
  | some (y4, r1) =>
    match expectChar '-' r1 with
    | none => none
    | some r2 =>
      match takeDigitsN 2 r2 with
      | none => none
      | some (mo2, r3) =>
        match expectChar '-' r3 with
        | none => none
        | some r4 =>
          match takeDigitsN 2 r4 with
          | none => none
          | some (dy2, r5) =>
            match dropSpaces1 r5 with
            | none => none
            | some r6 =>
              match takeDigitsN 4 r6 with
              | none => none
              | some (t1, r7) =>
                match expectChar '-' r7 with
                | none => none
                | some r8 =>
                  match takeDigitsN 4 r8 with
                  | none => none
                  | some (t2, r9) =>
                    match dropSpaces1 r9 with
                    | none => none
                    | some r10 =>
                      match lastLineGroup r10 with
                      | none => none
                      | some x => some (y4 ++ '-' :: mo2 ++ '-' :: dy2, t1, t2, x)

/-- From a four-digit time group: `int(s[:2])`, `int(s[2:])`, then
`strptime(f"{h:02d}:{m:02d}", "%H:%M")`.  The explicit length-4 check of
the source is subsumed by the shape of the group. -/
def hhmmOfGroup (g : List Char) : Option Tod :=
  match g with
  | [a, b, c, d] =>
    hmParse (pad2 (10 * d2n a + d2n b) ++ ':' :: pad2 (10 * d2n c + d2n d))
  | _ => none

/-- `parse_tab_name(tab_name)`: returns
`(tab_date, tab_start_time, tab_end_time, tab_extra)` or raises
`ValueError`. -/
def parse_tab_name (tabName : String) : Except PyErr (Date × Tod × Tod × String) :=
  match tabNameMatch (pyStrip tabName.data) with
  | none => Except.error (PyErr.valueError (ErrInfo.tabPattern tabName))
  | some (dg, t1g, t2g, xg) =>
    match dateParse dg with
    | none => Except.error (PyErr.valueError (ErrInfo.tabDateBad (String.mk dg) tabName))
    | some d =>
      match hhmmOfGroup t1g with
      | none => Except.error (PyErr.valueError (ErrInfo.tabTimeBad true (String.mk t1g) tabName))
      | some st =>
        match hhmmOfGroup t2g with
        | none => Except.error (PyErr.valueError (ErrInfo.tabTimeBad false (String.mk t2g) tabName))
        | some en => Except.ok (d, st, en, String.mk xg)

/-! ## `verify_header` (src/import.py lines 21-35 and 91-106) -/

def EXPECTED_HEADERS : List String :=
  ["Date", "Supply Temp/C", "Return Temp/C", "Mode", "Request", "State", "Note",
    "Heating", "Heating_Group", "DateOnly", "TimeBlock", "DateTimeBlockState"]

/-- A worksheet as the importer consumes it: a title, the maximum
populated row index, and cell access by (row, column). -/
structure Worksheet where
  title : String
  maxRow : Nat
  cell : Nat → Nat → Cell

/-- `cell_value if cell_value else ""`: the normalization `verify_header`
applies to each first-row cell (any falsy value becomes the empty
string). -/
def codeNorm (c : Cell) : Cell := if pyTruthy c then c else Cell.str ""

def expectedCells : List Cell := EXPECTED_HEADERS.map Cell.str

/-- The `header_row` list built by `verify_header`. -/
def headerFound (ws : Worksheet) : List Cell :=
  (List.range EXPECTED_HEADERS.length).map (fun i => codeNorm (ws.cell 1 (i + 1)))

/-- `verify_header(worksheet)`: compare against `EXPECTED_HEADERS`,
raising a `ValueError` that carries both sequences on mismatch. -/
def verify_header (ws : Worksheet) : Except PyErr Unit :=
  if headerFound ws = expectedCells then Except.ok ()
  else
    Except.error (PyErr.valueError
      (ErrInfo.headerMismatch expectedCells (headerFound ws) ws.title))

instance instDecEqExcept {ε α : Type} [DecidableEq ε] [DecidableEq α] :
    DecidableEq (Except ε α) := fun x y =>
  match x, y with
  | Except.ok a, Except.ok b =>
    if h : a = b then isTrue (by rw [h])
    else isFalse (by intro hc; injection hc; contradiction)
  | Except.error a, Except.error b =>
    if h : a = b then isTrue (by rw [h])
    else isFalse (by intro hc; injection hc; contradiction)
  | Except.ok _, Except.error _ => isFalse (by intro hc; exact Except.noConfusion hc)
  | Except.error _, Except.ok _ => isFalse (by intro hc; exact Except.noConfusion hc)

/-! Sanity checks of the parsing layer on concrete inputs. -/

example : pyIntOfString " 17 " = some 17 := by decide

example : pyIntOfString "1_0" = some 10 := by decide

example : pyIntOfString "1_" = none := by decide

example : pyIntOfString "7.5" = none := by decide

example : parse_hhmm "0800".data = some ⟨8, 0, 0⟩ := by decide

example : parse_hhmm "08:00".data = some ⟨8, 0, 0⟩ := by decide

example : parse_hhmm "8:5".data = some ⟨8, 5, 0⟩ := by decide

example : parse_hhmm "25:00".data = none := by decide

example : parse_hhmm "0861".data = none := by decide

example : parse_time_block "2100-2359" = Except.ok (⟨21, 0, 0⟩, ⟨23, 59, 0⟩) := by decide

example : tsParse "2025-03-31 21:05:00".data = some ⟨2025, 3, 31, 21, 5, 0⟩ := by decide

example : tsParse "2025-02-30 00:00:00".data = none := by decide

example : dateParse "2024-02-29".data = some ⟨2024, 2, 29⟩ := by decide

example : dateParse "2023-02-29".data = none := by decide

example :
    parse_tab_name "2025-03-31 2101-2359 Basement" =
      Except.ok (⟨2025, 3, 31⟩, ⟨21, 1, 0⟩, ⟨23, 59, 0⟩, "Basement") := by decide

example : (parse_tab_name " 2025-01-01  0800-0900 X").isOk = true := by decide

example : (parse_tab_name "2025-13-01 0800-0900 X").isOk = false := by decide

example : (parse_tab_name "2025-01-01 0800-2400 X").isOk = false := by decide

/-! ## Row coercion (src/import.py lines 278-359)

The transform block of `main`, per data row: the twelve cells are read
positionally (column 1 = `Date` … column 12 = `DateTimeBlockState`);
a row whose `Date` cell is `None` is skipped by the caller before this
block runs.  Each fallible conversion appears in source order, so the
first failing field determines the raised exception. -/

/-- The worksheet-window data and run label denormalized onto every
record. -/
structure TabW where
  tabDate : Date
  tabStart : Tod
  tabEnd : Tod
  deriving DecidableEq, Repr

/-- The full 20-column tuple bound into the `INSERT` statement. -/
structure HeatRecord where
  date : PyDateTime
  supply : Option PyFloat
  return_temp_c : Option PyFloat
  mode : String
  request : String
  state : String
  enabled : Bool
  note : String
  heating : String
  heating_on : Bool
  heating_group : Option Int
  date_only : Option Date
  time_block_start : Option Tod
  time_block_end : Option Tod
  timeblockstate : String
  tab_full_str : String
  tab_date : Date
  tab_start_time : Tod
  tab_end_time : Tod
  sheet_name : String
  deriving DecidableEq, Repr

/-- The `date` field: a datetime value is used as is, anything else is
rendered with `str()` and parsed as `"%Y-%m-%d %H:%M:%S"`. -/
def tsCoerce (c : Cell) : Except PyErr PyDateTime :=
  match c with
  | Cell.datetime dt => Except.ok dt
  | c =>
    match tsParse (pyStr c).data with
    | some dt => Except.ok dt
    | none => Except.error (PyErr.valueError (ErrInfo.timestampBad (pyStr c)))

/-- `float(x) if x is not None else None`. -/
def nullableFloat (c : Cell) : Except PyErr (Option PyFloat) :=
  match c with
  | Cell.null => Except.ok Option.none
  | c => (pyFloatCell c).map some

/-- `int(x) if x is not None else None`. -/
def nullableInt (c : Cell) : Except PyErr (Option Int) :=
  match c with
  | Cell.null => Except.ok Option.none
  | c => (pyInt c).map some

/-- `str(x) if x else ""`: the text-field coercion, keyed on truthiness. -/
def textCoerce (c : Cell) : String := if pyTruthy c then pyStr c else ""

/-- The `date_only` field: a datetime value contributes its date, `None`
stays null, anything else is rendered with `str()` and parsed as
`"%Y-%m-%d"`. -/
def dateOnlyCoerce (c : Cell) : Except PyErr (Option Date) :=
  match c with
  | Cell.datetime dt => Except.ok (some dt.dateOf)
  | Cell.null => Except.ok Option.none
  | c =>
    match dateParse (pyStr c).data with
    | some d => Except.ok (some d)
    | none => Except.error (PyErr.valueError (ErrInfo.dateOnlyBad (pyStr c)))

/-- The time-block fields: a falsy cell yields `(None, None)`, a truthy
one is rendered with `str()` and parsed by `parse_time_block`. -/
def timeBlockCoerce (c : Cell) : Except PyErr (Option Tod × Option Tod) :=
  if pyTruthy c then (parse_time_block (pyStr c)).map (fun p => (some p.1, some p.2))
  else Except.ok (Option.none, Option.none)

/-- The whole transform block for one row with a present `Date` cell.
`rv` is positional cell access (`rv 1` = the `Date` cell, …); fallible
conversions are sequenced in source order. -/
def coerceRow (rv : Nat → Cell) (tab : TabW) (title label : String) :
    Except PyErr HeatRecord :=
  match tsCoerce (rv 1) with
  | Except.error e => Except.error e
  | Except.ok date_value =>
    match nullableFloat (rv 2) with
    | Except.error e => Except.error e
    | Except.ok supply =>
      match nullableFloat (rv 3) with
      | Except.error e => Except.error e
      | Except.ok return_temp_c =>
        match nullableInt (rv 9) with
        | Except.error e => Except.error e
        | Except.ok heating_group =>
          match dateOnlyCoerce (rv 10) with
          | Except.error e => Except.error e
          | Except.ok date_only =>
            match timeBlockCoerce (rv 11) with
            | Except.error e => Except.error e
            | Except.ok tb =>
              Except.ok
                { date := date_value
                  supply := supply
                  return_temp_c := return_temp_c
                  mode := textCoerce (rv 4)
                  request := textCoerce (rv 5)
                  state := textCoerce (rv 6)
                  enabled := textCoerce (rv 6) == "Enable"
                  note := textCoerce (rv 7)
                  heating := textCoerce (rv 8)
                  heating_on := textCoerce (rv 8) == "On"
                  heating_group := heating_group
                  date_only := date_only
                  time_block_start := tb.1
                  time_block_end := tb.2
                  timeblockstate := textCoerce (rv 12)
                  tab_full_str := title
                  tab_date := tab.tabDate
                  tab_start_time := tab.tabStart
                  tab_end_time := tab.tabEnd
                  sheet_name := label }

/-! ## The import orchestrator (src/import.py `main`, data-loading part)

The model covers the transactional data-loading run: the worksheet loop
with `autocommit = False`, the single `conn.commit()` after all
worksheets, and the `conn.rollback(); conn.close(); sys.exit(1)`
sequence in every `except` handler.  The committed table content is
`init` (whatever the table held before the run) until a commit lands.
An exception type not caught by a handler (`TypeError`/`OverflowError`
from the transform block) unwinds through the `finally: conn.close()`
with neither commit nor rollback issued by the program.  Gateway insert
outcomes are an oracle indexed by the number of inserts issued so far. -/

/-- Where a caught error aborted the run (each names what the printed
message names). -/
inductive Fatal where
  | tabNameError (i : ErrInfo)
  | headerError (i : ErrInfo)
  | rowError (rowIdx : Nat) (sheetTitle : String) (i : ErrInfo)
  | insertError (rowIdx : Nat) (sheetTitle : String)
  deriving DecidableEq, Repr

/-- How a run terminates early: a handled error (rollback, exit 1) or an
uncaught exception. -/
inductive Abort where
  | fatal (f : Fatal)
  | crash (e : PyErr)
  deriving DecidableEq, Repr

/-- In-flight transaction state: rows inserted but not yet committed,
and the number of insert statements issued (for the gateway oracle). -/
structure LoadSt where
  pending : List HeatRecord
  nextIns : Nat
  deriving DecidableEq, Repr

/-- One iteration of the data-row loop: skip when the `Date` cell is
`None`; run the transform block, mapping a `ValueError` to the handled
row-error abort and any other exception to a crash; then attempt the
insert.  The second component counts this worksheet's inserted rows. -/
def stepRow (oracle : Nat → Bool) (ws : Worksheet) (tab : TabW) (label : String)
    (acc : LoadSt × Nat) (rowIdx : Nat) : Except Abort (LoadSt × Nat) :=
  if ws.cell rowIdx 1 = Cell.null then Except.ok acc
  else
    match coerceRow (ws.cell rowIdx) tab ws.title label with
    | Except.error (PyErr.valueError m) =>
      Except.error (Abort.fatal (Fatal.rowError rowIdx ws.title m))
    | Except.error e => Except.error (Abort.crash e)
    | Except.ok r =>
      if oracle acc.1.nextIns then
        Except.ok ({ pending := acc.1.pending ++ [r], nextIns := acc.1.nextIns + 1 }, acc.2 + 1)
      else Except.error (Abort.fatal (Fatal.insertError rowIdx ws.title))

/-- One worksheet: parse the tab name, verify the header, then fold the
data rows `2 .. max_row`. -/
def processSheet (oracle : Nat → Bool) (label : String) (st : LoadSt) (ws : Worksheet) :
    Except Abort (LoadSt × Nat) :=
  match parse_tab_name ws.title with
  | Except.error (PyErr.valueError m) => Except.error (Abort.fatal (Fatal.tabNameError m))
  | Except.error e => Except.error (Abort.crash e)
  | Except.ok (d, t1, t2, _) =>
    match verify_header ws with
    | Except.error (PyErr.valueError m) => Except.error (Abort.fatal (Fatal.headerError m))
    | Except.error e => Except.error (Abort.crash e)
    | Except.ok _ =>
      (List.range' 2 (ws.maxRow - 1)).foldlM (stepRow oracle ws ⟨d, t1, t2⟩ label) (st, 0)

/-- The worksheet loop, collecting per-worksheet inserted-row counts. -/
def runSheets (oracle : Nat → Bool) (label : String) :
    List Worksheet → LoadSt → Except Abort (LoadSt × List Nat)
  | [], st => Except.ok (st, [])
  | ws :: rest, st =>
    match processSheet oracle label st ws with
    | Except.error a => Except.error a
    | Except.ok (st2, cnt) =>
      match runSheets oracle label rest st2 with
      | Except.error a => Except.error a
      | Except.ok (st3, cnts) => Except.ok (st3, cnt :: cnts)

/-- The observable outcome of a data-loading run. -/
structure RunResult where
  table : List HeatRecord
  exitCode : Nat
  crashed : Bool
  commits : Nat
  rollbacks : Nat
  counts : List Nat
  fatalInfo : Option Fatal
  deriving DecidableEq, Repr

/-- The whole data-loading run against a table initially holding
`init`: a single commit after all worksheets succeed, a single rollback
then `sys.exit(1)` on a handled error, and neither on an uncaught
exception (the process still dies nonzero and the uncommitted
transaction is discarded with the connection). -/
def runImport (wb : List Worksheet) (label : String) (oracle : Nat → Bool)
    (init : List HeatRecord) : RunResult :=
  match runSheets oracle label wb { pending := [], nextIns := 0 } with
  | Except.ok (st, cnts) =>
    { table := init ++ st.pending, exitCode := 0, crashed := false, commits := 1,
      rollbacks := 0, counts := cnts, fatalInfo := Option.none }
  | Except.error (Abort.fatal f) =>
    { table := init, exitCode := 1, crashed := false, commits := 0, rollbacks := 1,
      counts := [], fatalInfo := some f }
  | Except.error (Abort.crash _) =>
    { table := init, exitCode := 1, crashed := true, commits := 0, rollbacks := 0,
      counts := [], fatalInfo := Option.none }

/-- The specification-side description of what a successful run inserts:
for each worksheet, every data row whose `Date` cell is present and
whose transform succeeds, in sheet order. -/
def sheetRecords (label : String) (ws : Worksheet) : List HeatRecord :=
  match parse_tab_name ws.title with
  | Except.error _ => []
  | Except.ok (d, t1, t2, _) =>
    (List.range' 2 (ws.maxRow - 1)).filterMap (fun i =>
      if ws.cell i 1 = Cell.null then Option.none
      else (coerceRow (ws.cell i) ⟨d, t1, t2⟩ ws.title label).toOption)

/-- All coerced rows of all worksheets, in workbook order. -/
def allRecords (label : String) (wb : List Worksheet) : List HeatRecord :=
  wb.foldr (fun ws acc => sheetRecords label ws ++ acc) []

/-! ### Concrete fixtures used by end-to-end checks and witnesses -/

/-- A correct header row in columns 1–12. -/
def headerCell (c : Nat) : Cell :=
  if 1 ≤ c && c ≤ 12 then Cell.str (EXPECTED_HEADERS.getD (c - 1) "") else Cell.null

/-- The worksheet of the specification's end-to-end scenario A. -/
def wsA : Worksheet where
  title := "2025-03-31 2101-2359 Basement"
  maxRow := 2
  cell := fun r c =>
    if r == 1 then headerCell c
    else if r == 2 then
      match c with
      | 1 => Cell.datetime ⟨2025, 3, 31, 21, 5, 0⟩
      | 2 => Cell.str "45.2"
      | 3 => Cell.float (PyFloat.finite ⟨381, -1⟩)
      | 6 => Cell.str "Enable"
      | 8 => Cell.str "On"
      | 11 => Cell.str "2100-2359"
      | _ => Cell.null
    else Cell.null

example : (runImport [wsA] "L" (fun _ => true) []).exitCode = 0 := by decide

example : (runImport [wsA] "L" (fun _ => true) []).counts = [1] := by decide

example :
    (runImport [wsA] "L" (fun _ => true) []).table =
      [{ date := ⟨2025, 3, 31, 21, 5, 0⟩
         supply := some (PyFloat.finite ⟨452, -1⟩)
         return_temp_c := some (PyFloat.finite ⟨381, -1⟩)
         mode := ""
         request := ""
         state := "Enable"
         enabled := true
         note := ""
         heating := "On"
         heating_on := true
         heating_group := Option.none
         date_only := Option.none
         time_block_start := some ⟨21, 0, 0⟩
         time_block_end := some ⟨23, 59, 0⟩
         timeblockstate := ""
         tab_full_str := "2025-03-31 2101-2359 Basement"
         tab_date := ⟨2025, 3, 31⟩
         tab_start_time := ⟨21, 1, 0⟩
         tab_end_time := ⟨23, 59, 0⟩
         sheet_name := "L" }] := by decide

/-! ## Shared inversion lemma for `coerceRow` -/

/-- Inversion of a successful row coercion: every field of the produced
record is determined by the corresponding cell conversion. -/
theorem coerceRow_ok_fields (rv : Nat → Cell) (tab : TabW) (title label : String)
    (r : HeatRecord) (h : coerceRow rv tab title label = Except.ok r) :
    tsCoerce (rv 1) = Except.ok r.date ∧
    nullableFloat (rv 2) = Except.ok r.supply ∧
    nullableFloat (rv 3) = Except.ok r.return_temp_c ∧
    nullableInt (rv 9) = Except.ok r.heating_group ∧
    dateOnlyCoerce (rv 10) = Except.ok r.date_only ∧
    timeBlockCoerce (rv 11) = Except.ok (r.time_block_start, r.time_block_end) ∧
    r.mode = textCoerce (rv 4) ∧
    r.request = textCoerce (rv 5) ∧
    r.state = textCoerce (rv 6) ∧
    r.enabled = (textCoerce (rv 6) == "Enable") ∧
    r.note = textCoerce (rv 7) ∧
    r.heating = textCoerce (rv 8) ∧
    r.heating_on = (textCoerce (rv 8) == "On") ∧
    r.timeblockstate = textCoerce (rv 12) ∧
    r.tab_full_str = title ∧ r.tab_date = tab.tabDate ∧
    r.tab_start_time = tab.tabStart ∧ r.tab_end_time = tab.tabEnd ∧
    r.sheet_name = label := by
  unfold coerceRow at h
  split at h
  next e h1 => exact Except.noConfusion h
  next dv h1 =>
    split at h
    next e h2 => exact Except.noConfusion h
    next sup h2 =>
      split at h
      next e h3 => exact Except.noConfusion h
      next rtc h3 =>
        split at h
        next e h4 => exact Except.noConfusion h
        next hg h4 =>
          split at h
          next e h5 => exact Except.noConfusion h
          next donly h5 =>
            split at h
            next e h6 => exact Except.noConfusion h
            next tb h6 =>
              injection h with h7
              subst h7
              exact ⟨h1, h2, h3, h4, h5, h6, rfl, rfl, rfl, rfl, rfl, rfl, rfl,
                rfl, rfl, rfl, rfl, rfl, rfl⟩

/-! ## C2: header validation -/

/-- The normalization the specification describes: only an absent cell
becomes the empty string. -/
def claimNorm (c : Cell) : Cell :=
  match c with
  | Cell.null => Cell.str ""
  | c => c

theorem norm_pointwise (c : Cell) (L : String) (hL : L ≠ "") :
    codeNorm c = Cell.str L ↔ claimNorm c = Cell.str L := by
  constructor
  · intro hx
    unfold codeNorm at hx
    split at hx
    · subst hx; rfl
    · injection hx with h2; exact absurd h2.symm hL
  · intro hx
    unfold claimNorm at hx
    cases c with
    | null => injection hx with h2; exact absurd h2.symm hL
    | str s =>
      injection hx with h2
      subst h2
      unfold codeNorm
      have hb : (s == "") = false := beq_eq_false_iff_ne.mpr hL
      simp [pyTruthy, hb]
    | int n => exact Cell.noConfusion hx
    | float f => exact Cell.noConfusion hx
    | bool b => exact Cell.noConfusion hx
    | datetime dt => exact Cell.noConfusion hx
    | date d => exact Cell.noConfusion hx
    | time t => exact Cell.noConfusion hx

theorem normList_iff (labels : List String) :
    ∀ cells : List Cell, (∀ L ∈ labels, L ≠ "") →
      (cells.map codeNorm = labels.map Cell.str ↔
        cells.map claimNorm = labels.map Cell.str) := by
  induction labels with
  | nil => intro cells _; cases cells <;> simp
  | cons L ls ih =>
    intro cells hall
    cases cells with
    | nil => simp
    | cons c cs =>
      simp only [List.map_cons, List.cons.injEq]
      exact and_congr (norm_pointwise c L (hall L (by simp)))
        (ih cs (fun M hM => hall M (by simp [hM])))

theorem verify_header_isOk (ws : Worksheet) :
    (verify_header ws).isOk = true ↔ headerFound ws = expectedCells := by
  unfold verify_header
  split <;> simp_all [Except.isOk, Except.toBool]

/-- C2: `verify_header` succeeds iff the first-row cells of columns
1–12, with absent cells normalized to the empty string, are positionally
equal to the fixed expected label sequence; on failure the raised error
carries both the expected and the found sequences. -/
theorem c2_header_verification (ws : Worksheet) :
    ((verify_header ws).isOk = true ↔
      (List.range EXPECTED_HEADERS.length).map (fun i => claimNorm (ws.cell 1 (i + 1))) =
        EXPECTED_HEADERS.map Cell.str) ∧
    (verify_header ws = Except.ok () ∨
      verify_header ws = Except.error (PyErr.valueError
        (ErrInfo.headerMismatch expectedCells (headerFound ws) ws.title))) := by
  constructor
  · have hcells : headerFound ws =
        ((List.range EXPECTED_HEADERS.length).map (fun i => ws.cell 1 (i + 1))).map codeNorm := by
      simp [headerFound, List.map_map]
    have hclaim :
        (List.range EXPECTED_HEADERS.length).map (fun i => claimNorm (ws.cell 1 (i + 1))) =
        ((List.range EXPECTED_HEADERS.length).map (fun i => ws.cell 1 (i + 1))).map claimNorm := by
      simp [List.map_map]
    rw [verify_header_isOk, hcells, hclaim]
    exact normList_iff EXPECTED_HEADERS _ (by decide)
  · unfold verify_header
    split
    · exact Or.inl rfl
    · exact Or.inr rfl

/-! ## C3: rows with an absent timestamp are skipped -/

/-- C3: a data row whose `Date` cell is absent leaves the transaction
state, the insert counter, and the per-sheet count unchanged, raises no
error, and contributes no record. -/
theorem c3_absent_timestamp_skipped (oracle : Nat → Bool) (ws : Worksheet) (tab : TabW)
    (label : String) (acc : LoadSt × Nat) (i : Nat) (h : ws.cell i 1 = Cell.null) :
    stepRow oracle ws tab label acc i = Except.ok acc ∧
    (if ws.cell i 1 = Cell.null then Option.none
     else (coerceRow (ws.cell i) tab ws.title label).toOption) = Option.none := by
  refine ⟨?_, if_pos h⟩
  unfold stepRow
  rw [if_pos h]

/-- A worksheet whose data row is entirely empty. -/
def wsEmptyRow : Worksheet where
  title := "2025-01-01 0800-0900 X"
  maxRow := 2
  cell := fun _ _ => Cell.null

theorem c3_witness :
    stepRow (fun _ => true) wsEmptyRow ⟨⟨2025, 1, 1⟩, ⟨8, 0, 0⟩, ⟨9, 0, 0⟩⟩ "L"
      (⟨[], 0⟩, 0) 2 = Except.ok (⟨[], 0⟩, 0) :=
  (c3_absent_timestamp_skipped (fun _ => true) wsEmptyRow ⟨⟨2025, 1, 1⟩, ⟨8, 0, 0⟩, ⟨9, 0, 0⟩⟩
    "L" (⟨[], 0⟩, 0) 2 rfl).1

/-! ## C6: the `enabled` and `heating_on` flags -/

/-- C6: in every produced record, `enabled` is true iff the coerced
state text is exactly the literal `"Enable"`, and `heating_on` is true
iff the coerced heating text is exactly `"On"`; in particular
`"enable"`, `"Enabled"` and `""` all yield `false`. -/
theorem c6_boolean_flags (rv : Nat → Cell) (tab : TabW) (title label : String)
    (r : HeatRecord) (h : coerceRow rv tab title label = Except.ok r) :
    ((r.enabled = true) ↔ r.state = "Enable") ∧
    ((r.heating_on = true) ↔ r.heating = "On") ∧
    (r.state = "enable" → r.enabled = false) ∧
    (r.state = "Enabled" → r.enabled = false) ∧
    (r.state = "" → r.enabled = false) := by
  obtain ⟨-, -, -, -, -, -, -, -, h9, h10, -, h12, h13, -, -, -, -, -, -⟩ :=
    coerceRow_ok_fields rv tab title label r h
  refine ⟨?_, ?_, ?_, ?_, ?_⟩
  · rw [h10, ← h9]; exact beq_iff_eq
  · rw [h13, ← h12]; exact beq_iff_eq
  · intro hs; rw [h10]; rw [h9] at hs; rw [hs]; decide
  · intro hs; rw [h10]; rw [h9] at hs; rw [hs]; decide
  · intro hs; rw [h10]; rw [h9] at hs; rw [hs]; decide

/-- A row whose state cell reads `"enable"` (wrong case). -/
def rvC6 : Nat → Cell := fun c =>
  match c with
  | 1 => Cell.datetime ⟨2025, 1, 1, 8, 30, 0⟩
  | 6 => Cell.str "enable"
  | _ => Cell.null

def tabW0 : TabW := ⟨⟨2025, 1, 1⟩, ⟨8, 0, 0⟩, ⟨9, 0, 0⟩⟩

/-- The record `rvC6` coerces to. -/
def recC6 : HeatRecord where
  date := ⟨2025, 1, 1, 8, 30, 0⟩
  supply := Option.none
  return_temp_c := Option.none
  mode := ""
  request := ""
  state := "enable"
  enabled := false
  note := ""
  heating := ""
  heating_on := false
  heating_group := Option.none
  date_only := Option.none
  time_block_start := Option.none
  time_block_end := Option.none
  timeblockstate := ""
  tab_full_str := "T"
  tab_date := ⟨2025, 1, 1⟩
  tab_start_time := ⟨8, 0, 0⟩
  tab_end_time := ⟨9, 0, 0⟩
  sheet_name := "L"

theorem c6_witness : recC6.enabled = false :=
  (c6_boolean_flags rvC6 tabW0 "T" "L" recC6 (by decide)).2.2.1 (by decide)

/-! ## C10: truthiness-based text and time-block coercion -/

/-- C10: with a present timestamp, a present-but-falsy cell in any of
the six text columns coerces to the empty string (not to its `str()`
rendering, which for `0` is `"0"` and for `False` is `"False"`), and a
falsy time-block cell yields null in both time-block fields instead of
failing coercion. -/
theorem c10_truthy_defaults (rv : Nat → Cell) (tab : TabW) (title label : String)
    (r : HeatRecord) (h : coerceRow rv tab title label = Except.ok r) :
    (pyTruthy (rv 4) = false → r.mode = "") ∧
    (pyTruthy (rv 5) = false → r.request = "") ∧
    (pyTruthy (rv 6) = false → r.state = "") ∧
    (pyTruthy (rv 7) = false → r.note = "") ∧
    (pyTruthy (rv 8) = false → r.heating = "") ∧
    (pyTruthy (rv 12) = false → r.timeblockstate = "") ∧
    (pyTruthy (rv 11) = false →
      r.time_block_start = Option.none ∧ r.time_block_end = Option.none) ∧
    pyStr (Cell.int 0) = "0" ∧ pyTruthy (Cell.int 0) = false ∧
    pyStr (Cell.bool false) = "False" ∧ pyTruthy (Cell.bool false) = false := by
  obtain ⟨-, -, -, -, -, h6, h7, h8, h9, -, h11, h12, -, h14, -, -, -, -, -⟩ :=
    coerceRow_ok_fields rv tab title label r h
  refine ⟨?_, ?_, ?_, ?_, ?_, ?_, ?_, by decide, by decide, by decide, by decide⟩
  · intro hf; rw [h7]; unfold textCoerce; rw [hf]; rfl
  · intro hf; rw [h8]; unfold textCoerce; rw [hf]; rfl
  · intro hf; rw [h9]; unfold textCoerce; rw [hf]; rfl
  · intro hf; rw [h11]; unfold textCoerce; rw [hf]; rfl
  · intro hf; rw [h12]; unfold textCoerce; rw [hf]; rfl
  · intro hf; rw [h14]; unfold textCoerce; rw [hf]; rfl
  · intro hf
    unfold timeBlockCoerce at h6
    rw [hf] at h6
    simp only [Bool.false_eq_true, if_false] at h6
    injection h6 with h6
    exact ⟨congrArg Prod.fst h6.symm, congrArg Prod.snd h6.symm⟩

/-- A row with falsy `0` values in the mode and time-block columns. -/
def rvC10 : Nat → Cell := fun c =>
  match c with
  | 1 => Cell.datetime ⟨2025, 1, 1, 8, 30, 0⟩
  | 4 => Cell.int 0
  | 11 => Cell.int 0
  | _ => Cell.null

/-- The record `rvC10` coerces to. -/
def recC10 : HeatRecord where
  date := ⟨2025, 1, 1, 8, 30, 0⟩
  supply := Option.none
  return_temp_c := Option.none
  mode := ""
  request := ""
  state := ""
  enabled := false
  note := ""
  heating := ""
  heating_on := false
  heating_group := Option.none
  date_only := Option.none
  time_block_start := Option.none
  time_block_end := Option.none
  timeblockstate := ""
  tab_full_str := "T"
  tab_date := ⟨2025, 1, 1⟩
  tab_start_time := ⟨8, 0, 0⟩
  tab_end_time := ⟨9, 0, 0⟩
  sheet_name := "L"

theorem c10_witness : recC10.mode = "" ∧ recC10.time_block_start = Option.none := by
  have h := c10_truthy_defaults rvC10 tabW0 "T" "L" recC10 (by decide)
  exact ⟨h.1 (by decide), (h.2.2.2.2.2.2.1 (by decide)).1⟩

/-! ## C9: the `ValueError`-only trap lets `TypeError` escape -/

/-- A worksheet whose data row has a valid timestamp but a datetime
value in the `Heating_Group` column, on which `int()` raises
`TypeError`. -/
def wsC9 : Worksheet where
  title := "2025-01-01 0800-0900 X"
  maxRow := 2
  cell := fun r c =>
    if r == 1 then headerCell c
    else if r == 2 then
      match c with
      | 1 => Cell.datetime ⟨2025, 1, 1, 8, 30, 0⟩
      | 9 => Cell.datetime ⟨2025, 1, 1, 0, 0, 0⟩
      | _ => Cell.null
    else Cell.null

/-- C9: the transform block traps only `ValueError`; a datetime value in
the heating-group cell makes `int()` raise `TypeError`, which escapes
the handler: the run dies on an uncaught exception with no rollback
issued and no row-error report, instead of the defined
rollback-report-and-exit sequence. -/
theorem c9_typeerror_escapes :
    coerceRow (wsC9.cell 2) tabW0 wsC9.title "L" = Except.error PyErr.typeError ∧
    (runImport [wsC9] "L" (fun _ => true) []).crashed = true ∧
    (runImport [wsC9] "L" (fun _ => true) []).rollbacks = 0 ∧
    (runImport [wsC9] "L" (fun _ => true) []).fatalInfo = Option.none ∧
    (runImport [wsC9] "L" (fun _ => true) []).exitCode ≠ 0 ∧
    (runImport [wsC9] "L" (fun _ => true) []).table = [] := by decide

/-! ## C1: all-or-nothing transaction -/

/-- The record a data row contributes when processing succeeds, as used
by `sheetRecords`. -/
def rowRecord (ws : Worksheet) (tab : TabW) (label : String) (i : Nat) : Option HeatRecord :=
  if ws.cell i 1 = Cell.null then Option.none
  else (coerceRow (ws.cell i) tab ws.title label).toOption

theorem stepRow_ok_pending (oracle : Nat → Bool) (ws : Worksheet) (tab : TabW)
    (label : String) (acc acc2 : LoadSt × Nat)
    (i : Nat) (h : stepRow oracle ws tab label acc i = Except.ok acc2) :
    acc2.1.pending = acc.1.pending ++ (rowRecord ws tab label i).toList := by
  unfold stepRow at h
  unfold rowRecord
  split at h
  next hnull =>
    injection h with h2
    subst h2
    rw [if_pos hnull]
    simp
  next hnn =>
    rw [if_neg hnn]
    split at h
    next m hco => exact Except.noConfusion h
    next e hco _ => exact Except.noConfusion h
    next r hco =>
      split at h
      next hins =>
        injection h with h2
        subst h2
        rw [hco]
        simp [Except.toOption]
      next hins => exact Except.noConfusion h

theorem foldRows_pending (oracle : Nat → Bool) (ws : Worksheet) (tab : TabW)
    (label : String) :
    ∀ (rows : List Nat) (acc out : LoadSt × Nat),
      rows.foldlM (stepRow oracle ws tab label) acc = Except.ok out →
      out.1.pending = acc.1.pending ++ rows.filterMap (rowRecord ws tab label) := by
  intro rows
  induction rows with
  | nil =>
    intro acc out h
    injection h with h2
    subst h2
    simp
  | cons i rest ih =>
    intro acc out h
    rw [List.foldlM_cons] at h
    cases hs : stepRow oracle ws tab label acc i with
    | error a => rw [hs] at h; exact Except.noConfusion h
    | ok acc2 =>
      rw [hs] at h
      have h2 : rest.foldlM (stepRow oracle ws tab label) acc2 = Except.ok out := h
      have hstep := stepRow_ok_pending oracle ws tab label acc acc2 i hs
      have hrest := ih acc2 out h2
      rw [hrest, hstep, List.filterMap_cons]
      cases ho : rowRecord ws tab label i <;> simp [ho]

theorem processSheet_ok_pending (oracle : Nat → Bool) (label : String) (st : LoadSt)
    (ws : Worksheet) (out : LoadSt × Nat)
    (h : processSheet oracle label st ws = Except.ok out) :
    out.1.pending = st.pending ++ sheetRecords label ws := by
  unfold processSheet at h
  split at h
  next m hp => exact Except.noConfusion h
  next e hp _ => exact Except.noConfusion h
  next d t1 t2 x hp =>
    split at h
    next m hv => exact Except.noConfusion h
    next e hv _ => exact Except.noConfusion h
    next u hv =>
      have hfold := foldRows_pending oracle ws ⟨d, t1, t2⟩ label
        (List.range' 2 (ws.maxRow - 1)) (st, 0) out h
      rw [hfold]
      unfold sheetRecords
      rw [hp]
      rfl

theorem runSheets_ok_pending (oracle : Nat → Bool) (label : String) :
    ∀ (wbs : List Worksheet) (st : LoadSt) (out : LoadSt × List Nat),
      runSheets oracle label wbs st = Except.ok out →
      out.1.pending = st.pending ++ allRecords label wbs := by
  intro wbs
  induction wbs with
  | nil =>
    intro st out h
    injection h with h2
    subst h2
    simp [allRecords]
  | cons ws rest ih =>
    intro st out h
    unfold runSheets at h
    split at h
    next a hp => exact Except.noConfusion h
    next st2 cnt hp =>
      split at h
      next a hr => exact Except.noConfusion h
      next st3 cnts hr =>
        injection h with h2
        subst h2
        have h1 : st2.pending = st.pending ++ sheetRecords label ws :=
          processSheet_ok_pending oracle label st ws (st2, cnt) hp
        have h3 : st3.pending = st2.pending ++ allRecords label rest :=
          ih st2 (st3, cnts) hr
        have hcons : allRecords label (ws :: rest) =
            sheetRecords label ws ++ allRecords label rest := rfl
        rw [show (st3, cnts).1.pending = st3.pending from rfl, h3, h1, hcons,
          List.append_assoc]

/-- C1: a run either ends with exit code 0, exactly one commit, no
rollback, and the table extended by every coerced row of every
worksheet, or it ends nonzero with no commit and the table unchanged;
every handled failure (tab-name parse, header mismatch, coercion
`ValueError`, insert failure) additionally issues exactly one rollback
and exits with status 1. -/
theorem c1_atomicity (wb : List Worksheet) (label : String) (oracle : Nat → Bool)
    (init : List HeatRecord) :
    ((runImport wb label oracle init).exitCode = 0 →
      (runImport wb label oracle init).table = init ++ allRecords label wb ∧
      (runImport wb label oracle init).commits = 1 ∧
      (runImport wb label oracle init).rollbacks = 0) ∧
    ((runImport wb label oracle init).fatalInfo.isSome = true →
      (runImport wb label oracle init).table = init ∧
      (runImport wb label oracle init).commits = 0 ∧
      (runImport wb label oracle init).rollbacks = 1 ∧
      (runImport wb label oracle init).exitCode = 1) ∧
    ((runImport wb label oracle init).exitCode ≠ 0 →
      (runImport wb label oracle init).table = init ∧
      (runImport wb label oracle init).commits = 0) := by
  unfold runImport
  split
  next st cnts hrun =>
    refine ⟨fun _ => ⟨?_, rfl, rfl⟩, fun hf => absurd hf (by simp), fun hne => absurd rfl hne⟩
    have hp : st.pending = allRecords label wb := by
      have := runSheets_ok_pending oracle label wb ⟨[], 0⟩ (st, cnts) hrun
      simpa using this
    rw [hp]
  next f hrun =>
    exact ⟨fun h0 => absurd h0 (by simp), fun _ => ⟨rfl, rfl, rfl, rfl⟩,
      fun _ => ⟨rfl, rfl⟩⟩
  next e hrun =>
    exact ⟨fun h0 => absurd h0 (by simp), fun hf => absurd hf (by simp),
      fun _ => ⟨rfl, rfl⟩⟩

theorem c1_witness :
    (runImport [wsA] "L" (fun _ => true) []).table = [] ++ allRecords "L" [wsA] :=
  ((c1_atomicity [wsA] "L" (fun _ => true) []).1 (by decide)).1

/-! ## C8: heating-group coercion -/

/-- When the timestamp and the two temperature cells convert, a
heating-group cell holding an unparseable string fails the row with the
`ValueError` the handler reports. -/
theorem coerceRow_intLit_error (rv : Nat → Cell) (tab : TabW) (title label : String)
    (s : String) (dv : PyDateTime) (sup rtc : Option PyFloat)
    (h9 : rv 9 = Cell.str s) (hp : pyIntOfString s = Option.none)
    (hts : tsCoerce (rv 1) = Except.ok dv)
    (hsup : nullableFloat (rv 2) = Except.ok sup)
    (hrtc : nullableFloat (rv 3) = Except.ok rtc) :
    coerceRow rv tab title label = Except.error (PyErr.valueError (ErrInfo.intLit s)) := by
  unfold coerceRow
  rw [hts, hsup, hrtc, h9]
  simp [nullableInt, pyInt, hp, Except.map]

/-- C8 counterexample: a present heating-group cell that is not
parseable as an integer (here a datetime value) does not produce the
claimed `CoercionError` naming the row and worksheet: `int()` raises
`TypeError` and the row loop crashes instead of reporting. -/
theorem c8_counterexample :
    coerceRow (wsC9.cell 2) tabW0 "T" "L" = Except.error PyErr.typeError ∧
    stepRow (fun _ => true) wsC9 tabW0 "L" (⟨[], 0⟩, 0) 2 =
      Except.error (Abort.crash PyErr.typeError) := by decide

/-- C8 as amended: for a data row whose timestamp and temperature cells
convert, a heating-group cell holding an unparseable string aborts the
row with a `CoercionError` whose report names the row position and
worksheet name; a datetime cell instead raises a `TypeError` that
escapes that handling; an integer cell yields exactly that integer, a
parseable string its value, and an absent cell null. -/
theorem c8_heating_group (rv : Nat → Cell) (tab : TabW) (title label : String) :
    (∀ s dv sup rtc, rv 9 = Cell.str s → pyIntOfString s = Option.none →
      tsCoerce (rv 1) = Except.ok dv → nullableFloat (rv 2) = Except.ok sup →
      nullableFloat (rv 3) = Except.ok rtc →
      coerceRow rv tab title label = Except.error (PyErr.valueError (ErrInfo.intLit s))) ∧
    (∀ dt dv sup rtc, rv 9 = Cell.datetime dt →
      tsCoerce (rv 1) = Except.ok dv → nullableFloat (rv 2) = Except.ok sup →
      nullableFloat (rv 3) = Except.ok rtc →
      coerceRow rv tab title label = Except.error PyErr.typeError) ∧
    (∀ n r, rv 9 = Cell.int n → coerceRow rv tab title label = Except.ok r →
      r.heating_group = some n) ∧
    (∀ s k r, rv 9 = Cell.str s → pyIntOfString s = some k →
      coerceRow rv tab title label = Except.ok r → r.heating_group = some k) ∧
    (∀ r, rv 9 = Cell.null → coerceRow rv tab title label = Except.ok r →
      r.heating_group = Option.none) ∧
    (∀ (oracle : Nat → Bool) (ws : Worksheet) (acc : LoadSt × Nat) (i : Nat) s dv sup rtc,
      ws.cell i 9 = Cell.str s → pyIntOfString s = Option.none →
      tsCoerce (ws.cell i 1) = Except.ok dv →
      nullableFloat (ws.cell i 2) = Except.ok sup →
      nullableFloat (ws.cell i 3) = Except.ok rtc →
      stepRow oracle ws tab label acc i =
        Except.error (Abort.fatal (Fatal.rowError i ws.title (ErrInfo.intLit s)))) := by
  refine ⟨fun s dv sup rtc h9 hp hts hsup hrtc =>
      coerceRow_intLit_error rv tab title label s dv sup rtc h9 hp hts hsup hrtc,
    ?_, ?_, ?_, ?_, ?_⟩
  · intro dt dv sup rtc h9 hts hsup hrtc
    unfold coerceRow
    rw [hts, hsup, hrtc, h9]
    simp [nullableInt, pyInt, Except.map]
  · intro n r h9 hok
    obtain ⟨-, -, -, h4, -⟩ := coerceRow_ok_fields rv tab title label r hok
    rw [h9] at h4
    simp [nullableInt, pyInt, Except.map] at h4
    exact h4.symm
  · intro s k r h9 hp hok
    obtain ⟨-, -, -, h4, -⟩ := coerceRow_ok_fields rv tab title label r hok
    rw [h9] at h4
    simp [nullableInt, pyInt, hp, Except.map] at h4
    exact h4.symm
  · intro r h9 hok
    obtain ⟨-, -, -, h4, -⟩ := coerceRow_ok_fields rv tab title label r hok
    rw [h9] at h4
    simp [nullableInt] at h4
    exact h4.symm
  · intro oracle ws acc i s dv sup rtc h9 hp hts hsup hrtc
    have hnn : ¬(ws.cell i 1 = Cell.null) := by
      intro hc
      rw [hc] at hts
      have hne : tsCoerce Cell.null =
          Except.error (PyErr.valueError (ErrInfo.timestampBad "None")) := by decide
      rw [hne] at hts
      exact Except.noConfusion hts
    have hco := coerceRow_intLit_error (ws.cell i) tab ws.title label s dv sup rtc
      h9 hp hts hsup hrtc
    unfold stepRow
    rw [if_neg hnn, hco]

/-- A row whose heating-group cell holds the unparseable string `"abc"`. -/
def rvC8w : Nat → Cell := fun c =>
  match c with
  | 1 => Cell.datetime ⟨2025, 1, 1, 8, 30, 0⟩
  | 9 => Cell.str "abc"
  | _ => Cell.null

theorem c8_witness :
    coerceRow rvC8w tabW0 "T" "L" =
      Except.error (PyErr.valueError (ErrInfo.intLit "abc")) :=
  (c8_heating_group rvC8w tabW0 "T" "L").1 "abc" ⟨2025, 1, 1, 8, 30, 0⟩
    Option.none Option.none rfl (by decide) rfl rfl rfl

/-! ## Digit-character arithmetic -/

theorem d2n_digitChar_mod (d : Nat) : d2n (digitChar d) = d % 10 := by
  have h : d % 10 < 10 := Nat.mod_lt d (by decide)
  unfold digitChar d2n
  generalize hgen : d % 10 = k at h ⊢
  interval_cases k <;> decide

theorem isDigit_digitChar (d : Nat) : (digitChar d).isDigit = true := by
  have h : d % 10 < 10 := Nat.mod_lt d (by decide)
  unfold digitChar
  generalize hgen : d % 10 = k at h ⊢
  interval_cases k <;> decide

theorem not_space_digitChar (d : Nat) : isPySpace (digitChar d) = false := by
  have h : d % 10 < 10 := Nat.mod_lt d (by decide)
  unfold digitChar
  generalize hgen : d % 10 = k at h ⊢
  interval_cases k <;> decide

theorem digitChar_ne_colon (d : Nat) : (digitChar d == ':') = false := by
  have h : d % 10 < 10 := Nat.mod_lt d (by decide)
  unfold digitChar
  generalize hgen : d % 10 = k at h ⊢
  interval_cases k <;> decide

theorem val2_pad (n : Nat) (h : n < 100) :
    10 * d2n (digitChar (n / 10 % 10)) + d2n (digitChar (n % 10)) = n := by
  rw [d2n_digitChar_mod, d2n_digitChar_mod]
  omega

theorem digitsVal_pad4 (y : Nat) (h : y < 10000) :
    digitsVal [digitChar (y / 1000 % 10), digitChar (y / 100 % 10),
      digitChar (y / 10 % 10), digitChar (y % 10)] = y := by
  simp only [digitsVal, List.foldl, d2n_digitChar_mod]
  omega

theorem pad2_digits (n : Nat) : ∀ c ∈ pad2 n, c.isDigit = true := by
  intro c hc
  unfold pad2 at hc
  simp only [List.mem_cons, List.not_mem_nil, or_false] at hc
  rcases hc with hc | hc <;> (subst hc; exact isDigit_digitChar _)

theorem pad4_digits (n : Nat) : ∀ c ∈ pad4 n, c.isDigit = true := by
  intro c hc
  unfold pad4 at hc
  simp only [List.mem_cons, List.not_mem_nil, or_false] at hc
  rcases hc with hc | hc | hc | hc <;> (subst hc; exact isDigit_digitChar _)

theorem daysInMonth_le_31 (y m : Nat) : daysInMonth y m ≤ 31 := by
  unfold daysInMonth
  split_ifs <;> omega

/-! ## C4: valid tab names parse and reconstruct -/

/-- The specification's valid calendar date (what Python's `datetime`
constructor accepts, with a four-digit year). -/
def validDate (y mo dy : Nat) : Prop :=
  1 ≤ y ∧ y ≤ 9999 ∧ 1 ≤ mo ∧ mo ≤ 12 ∧ 1 ≤ dy ∧ dy ≤ daysInMonth y mo

instance (y mo dy : Nat) : Decidable (validDate y mo dy) := by
  unfold validDate; infer_instance

/-- A worksheet name of the exact shape
`YYYY-MM-DD HHMM-HHMM Extra` with single-space separators. -/
def tabNameChars (y mo dy h1 m1 h2 m2 : Nat) (extra : List Char) : List Char :=
  pad4 y ++ '-' :: (pad2 mo ++ '-' :: (pad2 dy ++ ' ' ::
    ((pad2 h1 ++ pad2 m1) ++ '-' :: ((pad2 h2 ++ pad2 m2) ++ ' ' :: extra))))

theorem takeDigitsN_all (ds : List Char) :
    ∀ (n : Nat) (r : List Char), ds.length = n → (∀ c ∈ ds, c.isDigit = true) →
      takeDigitsN n (ds ++ r) = some (ds, r) := by
  induction ds with
  | nil =>
    intro n r hlen hall
    subst hlen
    rfl
  | cons c cs ih =>
    intro n r hlen hall
    subst hlen
    have hrec := ih cs.length r rfl (fun x hx => hall x (List.mem_cons_of_mem c hx))
    simp only [List.cons_append, takeDigitsN, hall c (List.mem_cons_self c cs), if_true]
    rw [show cs.append r = cs ++ r from rfl, hrec]

theorem dropWhile_not_space (c : Char) (r : List Char) (h : isPySpace c = false) :
    (c :: r).dropWhile isPySpace = c :: r := by
  simp [List.dropWhile_cons, h]

theorem dropWhile_pad2_append (n : Nat) (r : List Char) :
    (pad2 n ++ r).dropWhile isPySpace = pad2 n ++ r := by
  simp [pad2, List.cons_append, List.dropWhile_cons, not_space_digitChar]

theorem dropSpaces1_of_nospace (X : List Char) (h : X.dropWhile isPySpace = X) :
    dropSpaces1 (' ' :: X) = some X := by
  simp [dropSpaces1, isPySpace, h]

theorem expectChar_cons (c : Char) (r : List Char) : expectChar c (c :: r) = some r := by
  simp [expectChar]

theorem getLast?_cons_ne (a : Char) (l : List Char) (h : l ≠ []) :
    (a :: l).getLast? = l.getLast? := by
  rw [show a :: l = [a] ++ l from rfl, List.getLast?_append_of_ne_nil [a] h]

theorem ne_nil_append (l1 l2 : List Char) (h : l2 ≠ []) : l1 ++ l2 ≠ [] := by
  intro hc
  rcases List.append_eq_nil.mp hc with ⟨-, h2⟩
  exact h h2

theorem pyStrip_eq_self (cs : List Char)
    (h1 : ∀ c, cs.head? = some c → isPySpace c = false)
    (h2 : ∀ c, cs.getLast? = some c → isPySpace c = false) : pyStrip cs = cs := by
  unfold pyStrip
  cases cs with
  | nil => rfl
  | cons a t =>
    have ha : isPySpace a = false := h1 a rfl
    rw [dropWhile_not_space a t ha]
    cases hr : (a :: t).reverse with
    | nil => exact absurd hr (by simp)
    | cons b u =>
      have hb : (a :: t).getLast? = some b := by
        rw [← List.head?_reverse, hr]
        rfl
      have hbs : isPySpace b = false := h2 b hb
      rw [dropWhile_not_space b u hbs, ← hr, List.reverse_reverse]

theorem hmTail_pad (m : Nat) (hm : m < 60) : hmTail (pad2 m) = some m := by
  have e := val2_pad m (by omega)
  simp only [hmTail, altOr, pad2, isDigit_digitChar, Bool.true_and, e,
    decide_eq_true (by omega : m ≤ 59), if_true]

theorem hmParse_pad (hv mv : Nat) (hh : hv < 24) (hm : mv < 60) :
    hmParse (pad2 hv ++ ':' :: pad2 mv) = some ⟨hv, mv, 0⟩ := by
  have e := val2_pad hv (by omega)
  simp only [hmParse, altOr, pad2, List.cons_append, List.nil_append,
    isDigit_digitChar, Bool.true_and, e, decide_eq_true (by omega : hv ≤ 23), if_true,
    show pad2 mv = [digitChar (mv / 10 % 10), digitChar (mv % 10)] from rfl]
  rw [show [digitChar (mv / 10 % 10), digitChar (mv % 10)] = pad2 mv from rfl,
    hmTail_pad mv hm]
  rfl

theorem hhmmOfGroup_pads (h m : Nat) (hh : h < 24) (hm : m < 60) :
    hhmmOfGroup (pad2 h ++ pad2 m) = some ⟨h, m, 0⟩ := by
  have eh := val2_pad h (by omega)
  have em := val2_pad m (by omega)
  simp only [hhmmOfGroup, pad2, List.cons_append, List.nil_append]
  rw [show (10 * d2n (digitChar (h / 10 % 10)) + d2n (digitChar (h % 10))) = h from eh,
    show (10 * d2n (digitChar (m / 10 % 10)) + d2n (digitChar (m % 10))) = m from em]
  exact hmParse_pad h m hh hm

theorem dateParse_pads (y mo dy : Nat) (h : validDate y mo dy) :
    dateParse (pad4 y ++ '-' :: (pad2 mo ++ '-' :: pad2 dy)) = some ⟨y, mo, dy⟩ := by
  obtain ⟨hy1, hy2, hmo1, hmo2, hdy1, hdy2⟩ := h
  have hdy31 : dy ≤ 31 := le_trans hdy2 (daysInMonth_le_31 y mo)
  have emo := val2_pad mo (by omega)
  have edy := val2_pad dy (by omega)
  have ey : digitsVal [digitChar (y / 1000 % 10), digitChar (y / 100 % 10),
      digitChar (y / 10 % 10), digitChar (y % 10)] = y := digitsVal_pad4 y (by omega)
  have hokmo : okM2 mo = true := by
    unfold okM2
    rw [decide_eq_true hmo1, decide_eq_true hmo2]
    rfl
  have hokdy : okD2 dy = true := by
    unfold okD2
    rw [decide_eq_true hdy1, decide_eq_true hdy31]
    rfl
  simp only [dateParse, year4, lit, field2, altOr, pad4, pad2, List.cons_append,
    List.nil_append, isDigit_digitChar, Bool.true_and, Bool.and_true, ey, emo, edy,
    hokmo, hokdy, if_true, beq_self_eq_true, List.isEmpty_nil, decide_eq_true hy1,
    decide_eq_true hdy2, Bool.and_self]

theorem c4_tabNameMatch (y mo dy h1 m1 h2 m2 : Nat) (extra : List Char)
    (hne : extra ≠ [])
    (hhead : ∀ c, extra.head? = some c → isPySpace c = false)
    (hnl : extra.contains '\n' = false) :
    tabNameMatch (tabNameChars y mo dy h1 m1 h2 m2 extra) =
      some (pad4 y ++ '-' :: (pad2 mo ++ '-' :: pad2 dy),
        pad2 h1 ++ pad2 m1, pad2 h2 ++ pad2 m2, extra) := by
  have e1 := takeDigitsN_all (pad4 y) 4
    ('-' :: (pad2 mo ++ '-' :: (pad2 dy ++ ' ' ::
      ((pad2 h1 ++ pad2 m1) ++ '-' :: ((pad2 h2 ++ pad2 m2) ++ ' ' :: extra)))))
    rfl (pad4_digits y)
  have e2 := takeDigitsN_all (pad2 mo) 2
    ('-' :: (pad2 dy ++ ' ' ::
      ((pad2 h1 ++ pad2 m1) ++ '-' :: ((pad2 h2 ++ pad2 m2) ++ ' ' :: extra))))
    rfl (pad2_digits mo)
  have e3 := takeDigitsN_all (pad2 dy) 2
    (' ' :: ((pad2 h1 ++ pad2 m1) ++ '-' :: ((pad2 h2 ++ pad2 m2) ++ ' ' :: extra)))
    rfl (pad2_digits dy)
  have e4 : dropSpaces1 (' ' ::
      ((pad2 h1 ++ pad2 m1) ++ '-' :: ((pad2 h2 ++ pad2 m2) ++ ' ' :: extra))) =
      some ((pad2 h1 ++ pad2 m1) ++ '-' :: ((pad2 h2 ++ pad2 m2) ++ ' ' :: extra)) := by
    apply dropSpaces1_of_nospace
    rw [List.append_assoc]
    exact dropWhile_pad2_append h1 _
  have hd12 : ∀ c ∈ pad2 h1 ++ pad2 m1, c.isDigit = true := by
    intro c hc
    rcases List.mem_append.mp hc with hc | hc
    · exact pad2_digits h1 c hc
    · exact pad2_digits m1 c hc
  have hd34 : ∀ c ∈ pad2 h2 ++ pad2 m2, c.isDigit = true := by
    intro c hc
    rcases List.mem_append.mp hc with hc | hc
    · exact pad2_digits h2 c hc
    · exact pad2_digits m2 c hc
  have e5 := takeDigitsN_all (pad2 h1 ++ pad2 m1) 4
    ('-' :: ((pad2 h2 ++ pad2 m2) ++ ' ' :: extra)) (by simp [pad2]) hd12
  have e6 := takeDigitsN_all (pad2 h2 ++ pad2 m2) 4 (' ' :: extra) (by simp [pad2]) hd34
  have e7 : dropSpaces1 (' ' :: extra) = some extra := by
    apply dropSpaces1_of_nospace
    cases extra with
    | nil => rfl
    | cons a t => exact dropWhile_not_space a t (hhead a rfl)
  have e8 : lastLineGroup extra = some extra := by
    unfold lastLineGroup
    rw [hnl]
    simp only [Bool.false_eq_true, if_false]
    rw [if_neg]
    intro hc
    exact hne (List.isEmpty_iff.mp hc)
  unfold tabNameChars tabNameMatch
  simp only [e1, e2, e3, e4, e5, e6, e7, e8, expectChar_cons]
  simp [List.cons_append, List.append_assoc]

/-- C4: every worksheet name of the exact pattern
`YYYY-MM-DD HHMM-HHMM Extra` (single-space separators, valid calendar
date, both times with hour 00–23 and minute 00–59, nonempty extra not
beginning or ending in whitespace and containing no newline) parses,
and the four outputs reconstruct exactly the date, the two times, and
the extra substring. -/
theorem c4_tab_name_roundtrip (y mo dy h1 m1 h2 m2 : Nat) (extra : List Char)
    (hd : validDate y mo dy) (hh1 : h1 < 24) (hm1 : m1 < 60) (hh2 : h2 < 24)
    (hm2 : m2 < 60) (hne : extra ≠ [])
    (hhead : ∀ c, extra.head? = some c → isPySpace c = false)
    (hlast : ∀ c, extra.getLast? = some c → isPySpace c = false)
    (hnl : extra.contains '\n' = false) :
    parse_tab_name (String.mk (tabNameChars y mo dy h1 m1 h2 m2 extra)) =
      Except.ok (⟨y, mo, dy⟩, ⟨h1, m1, 0⟩, ⟨h2, m2, 0⟩, String.mk extra) := by
  have hstrip : pyStrip (tabNameChars y mo dy h1 m1 h2 m2 extra) =
      tabNameChars y mo dy h1 m1 h2 m2 extra := by
    apply pyStrip_eq_self
    · intro c hc
      unfold tabNameChars pad4 at hc
      simp only [List.cons_append, List.head?_cons, Option.some.injEq] at hc
      subst hc
      exact not_space_digitChar _
    · intro c hc
      unfold tabNameChars at hc
      rw [List.getLast?_append_of_ne_nil _ (by simp),
        getLast?_cons_ne _ _ (by simp [pad2]),
        List.getLast?_append_of_ne_nil _ (by simp),
        getLast?_cons_ne _ _ (by simp [pad2]),
        List.getLast?_append_of_ne_nil _ (by simp),
        getLast?_cons_ne _ _ (by simp [pad2]),
        List.getLast?_append_of_ne_nil _ (by simp),
        getLast?_cons_ne _ _ (by simp [pad2]),
        List.getLast?_append_of_ne_nil _ (by simp),
        getLast?_cons_ne _ _ hne] at hc
      exact hlast c hc
  unfold parse_tab_name
  rw [show (String.mk (tabNameChars y mo dy h1 m1 h2 m2 extra)).data =
      tabNameChars y mo dy h1 m1 h2 m2 extra from rfl, hstrip,
    c4_tabNameMatch y mo dy h1 m1 h2 m2 extra hne hhead hnl]
  simp only [dateParse_pads y mo dy hd, hhmmOfGroup_pads h1 m1 hh1 hm1,
    hhmmOfGroup_pads h2 m2 hh2 hm2]

theorem c4_witness :
    parse_tab_name (String.mk (tabNameChars 2025 3 31 21 1 23 59 ['B'])) =
      Except.ok (⟨2025, 3, 31⟩, ⟨21, 1, 0⟩, ⟨23, 59, 0⟩, String.mk ['B']) :=
  c4_tab_name_roundtrip 2025 3 31 21 1 23 59 ['B'] (by decide) (by decide) (by decide)
    (by decide) (by decide) (by decide)
    (fun c hc => by injection hc with h; subst h; decide)
    (fun c hc => by injection hc with h; subst h; decide)
    (by decide)

/-! ## C5: names rejected by the parser -/

/-- Every character of the run is digit-class. -/
def allDigitsP (l : List Char) : Prop := ∀ c ∈ l, c.isDigit = true

/-- Every character of the run is whitespace. -/
def allSpaceP (l : List Char) : Prop := ∀ c ∈ l, isPySpace c = true

/-- The pattern exactly as the specification words it: the name itself
(no stripping) is `YYYY-MM-DD HHMM-HHMM Extra` with single-space
separators, a valid calendar date, and both times in range. -/
def specTabNamePattern (name : String) : Bool :=
  match takeDigitsN 4 name.data with
  | some (dc1, '-' :: r2) =>
    match takeDigitsN 2 r2 with
    | some (dc2, '-' :: r4) =>
      match takeDigitsN 2 r4 with
      | some (dc3, ' ' :: r6) =>
        match takeDigitsN 4 r6 with
        | some (t1, '-' :: r8) =>
          match takeDigitsN 4 r8 with
          | some (t2, ' ' :: extra) =>
            !extra.isEmpty &&
            decide (validDate (digitsVal dc1) (digitsVal dc2) (digitsVal dc3)) &&
            decide (digitsVal (t1.take 2) ≤ 23) && decide (digitsVal (t1.drop 2) ≤ 59) &&
            decide (digitsVal (t2.take 2) ≤ 23) && decide (digitsVal (t2.drop 2) ≤ 59)
          | _ => false
        | _ => false
      | _ => false
    | _ => false
  | _ => false

/-- C5 counterexample: a name with a leading space violates the
spec-worded pattern, yet `parse_tab_name` accepts it (the code strips
the name first and allows whitespace runs as separators). -/
theorem c5_counterexample :
    specTabNamePattern " 2025-01-01 0800-0900 X" = false ∧
    (parse_tab_name " 2025-01-01 0800-0900 X").isOk = true := by decide

theorem digit_toNat (c : Char) (h : c.isDigit = true) : 48 ≤ c.toNat ∧ c.toNat ≤ 57 := by
  simp only [Char.isDigit, Bool.and_eq_true, decide_eq_true_eq] at h
  obtain ⟨h1, h2⟩ := h
  exact ⟨UInt32.le_toNat_of_le (by decide) h1, UInt32.toNat_le_of_le (by decide) h2⟩

theorem d2n_le9 (c : Char) (h : c.isDigit = true) : d2n c ≤ 9 := by
  obtain ⟨h1, h2⟩ := digit_toNat c h
  unfold d2n
  omega

theorem dig_ne_dash (c : Char) (h : c.isDigit = true) : (c == '-') = false := by
  cases hb : c == '-' with
  | false => rfl
  | true =>
    have hc : c = '-' := beq_iff_eq.mp hb
    subst hc
    exact absurd h (by decide)

theorem length2 (l : List Char) (h : l.length = 2) : ∃ a b, l = [a, b] := by
  cases l with
  | nil => simp at h
  | cons a t =>
    cases t with
    | nil => simp at h
    | cons b u =>
      cases u with
      | nil => exact ⟨a, b, rfl⟩
      | cons c v => simp at h

theorem length4 (l : List Char) (h : l.length = 4) : ∃ a b c d, l = [a, b, c, d] := by
  cases l with
  | nil => simp at h
  | cons a t =>
    cases t with
    | nil => simp at h
    | cons b u =>
      cases u with
      | nil => simp at h
      | cons c v =>
        cases v with
        | nil => simp at h
        | cons d w =>
          cases w with
          | nil => exact ⟨a, b, c, d, rfl⟩
          | cons e z => simp at h

theorem val2_eq (x y : Char) : digitsVal [x, y] = 10 * d2n x + d2n y := by
  simp [digitsVal, List.foldl]

theorem takeDigitsN_sound :
    ∀ (n : Nat) (cs ds r : List Char), takeDigitsN n cs = some (ds, r) →
      cs = ds ++ r ∧ ds.length = n ∧ allDigitsP ds := by
  intro n
  induction n with
  | zero =>
    intro cs ds r h
    injection h with h2
    injection h2 with ha hb
    subst ha
    subst hb
    exact ⟨rfl, rfl, fun c hc => absurd hc (List.not_mem_nil c)⟩
  | succ m ih =>
    intro cs ds r h
    cases cs with
    | nil => exact Option.noConfusion h
    | cons c t =>
      unfold takeDigitsN at h
      split at h
      next hdig =>
        split at h
        next p hrec =>
          injection h with h2
          injection h2 with ha hb
          subst ha
          subst hb
          obtain ⟨he, hl, hdall⟩ := ih t p.1 p.2 hrec
          refine ⟨by rw [he]; rfl, by simp [hl], ?_⟩
          intro x hx
          rcases List.mem_cons.mp hx with hx | hx
          · subst hx; exact hdig
          · exact hdall x hx
        next hrec => exact Option.noConfusion h
      next hdig => exact Option.noConfusion h

theorem dropSpaces1_sound (cs r : List Char) (h : dropSpaces1 cs = some r) :
    ∃ w, cs = w ++ r ∧ w ≠ [] ∧ allSpaceP w := by
  cases cs with
  | nil => exact Option.noConfusion h
  | cons c t =>
    have h2 : (if isPySpace c = true then some (t.dropWhile isPySpace) else none) =
        some r := h
    split at h2
    next hsp =>
      injection h2 with h3
      subst h3
      refine ⟨c :: t.takeWhile isPySpace, ?_, by simp, ?_⟩
      · rw [List.cons_append, List.takeWhile_append_dropWhile]
      · intro x hx
        rcases List.mem_cons.mp hx with hx | hx
        · subst hx; exact hsp
        · exact List.mem_takeWhile_imp hx
    next hsp => exact Option.noConfusion h2

theorem lastLineGroup_sound (cs x : List Char) (h : lastLineGroup cs = some x) :
    (cs = x ∨ cs = x ++ ['\n']) ∧ x ≠ [] ∧ x.contains '\n' = false := by
  unfold lastLineGroup at h
  split at h
  next hnl =>
    split at h
    next revy hrev =>
      split at h
      next hguard =>
        injection h with h2
        subst h2
        simp only [Bool.and_eq_true, Bool.not_eq_true'] at hguard
        refine ⟨Or.inr ?_, fun he => by simp [he] at hguard, hguard.2⟩
        rw [← List.reverse_reverse cs, hrev]
        simp
      next hguard => exact Option.noConfusion h
    next hother => exact Option.noConfusion h
  next hnl =>
    split at h
    next hemp => exact Option.noConfusion h
    next hemp =>
      injection h with h2
      subst h2
      refine ⟨Or.inl rfl, fun he => hemp (by simp [he]), ?_⟩
      rw [Bool.not_eq_true] at hnl
      exact hnl

theorem pyStrip_getLast_not_space (cs : List Char) :
    ∀ c, (pyStrip cs).getLast? = some c → isPySpace c = false := by
  intro c hc
  unfold pyStrip at hc
  rw [List.getLast?_reverse] at hc
  have hmt := List.head?_dropWhile_not isPySpace (cs.dropWhile isPySpace).reverse
  rw [hc] at hmt
  exact hmt

theorem getLast?_decomp (dc1 dc2 dc3 w1 t1 t2 w2 r10 : List Char) (h : r10 ≠ []) :
    (dc1 ++ '-' :: (dc2 ++ '-' :: (dc3 ++ (w1 ++ (t1 ++ '-' :: (t2 ++ (w2 ++ r10))))))).getLast?
      = r10.getLast? := by
  rw [List.getLast?_append_of_ne_nil _ (by simp),
    getLast?_cons_ne _ _ (ne_nil_append _ _ (by simp)),
    List.getLast?_append_of_ne_nil _ (by simp),
    getLast?_cons_ne _ _
      (ne_nil_append _ _ (ne_nil_append _ _ (ne_nil_append _ _ (by simp)))),
    List.getLast?_append_of_ne_nil _ (ne_nil_append _ _ (ne_nil_append _ _ (by simp))),
    List.getLast?_append_of_ne_nil _ (ne_nil_append _ _ (by simp)),
    List.getLast?_append_of_ne_nil _ (by simp),
    getLast?_cons_ne _ _ (ne_nil_append _ _ (ne_nil_append _ _ h)),
    List.getLast?_append_of_ne_nil _ (ne_nil_append _ _ h),
    List.getLast?_append_of_ne_nil _ h]

theorem expectChar_sound (c : Char) (cs r : List Char) (h : expectChar c cs = some r) :
    cs = c :: r := by
  cases cs with
  | nil => exact Option.noConfusion h
  | cons a t =>
    have h2 : (if (a == c) = true then some t else none) = some r := h
    split at h2
    next hbeq =>
      injection h2 with h3
      subst h3
      rw [beq_iff_eq.mp hbeq]
    next hbeq => exact Option.noConfusion h2

theorem tabNameMatch_sound (cs g1 t1 t2 x : List Char)
    (hlast : ∀ c, cs.getLast? = some c → isPySpace c = false)
    (h : tabNameMatch cs = some (g1, t1, t2, x)) :
    ∃ dc1 dc2 dc3 w1 w2,
      cs = dc1 ++ '-' :: (dc2 ++ '-' :: (dc3 ++ (w1 ++ (t1 ++ '-' :: (t2 ++ (w2 ++ x)))))) ∧
      g1 = dc1 ++ '-' :: dc2 ++ '-' :: dc3 ∧
      dc1.length = 4 ∧ allDigitsP dc1 ∧ dc2.length = 2 ∧ allDigitsP dc2 ∧
      dc3.length = 2 ∧ allDigitsP dc3 ∧ t1.length = 4 ∧ allDigitsP t1 ∧
      t2.length = 4 ∧ allDigitsP t2 ∧
      w1 ≠ [] ∧ allSpaceP w1 ∧ w2 ≠ [] ∧ allSpaceP w2 ∧
      x ≠ [] ∧ x.contains '\n' = false := by
  unfold tabNameMatch at h
  split at h
  next hm1 => exact Option.noConfusion h
  next dc1 r1 hm1 =>
    split at h
    next hx1 => exact Option.noConfusion h
    next r2 hx1 =>
      split at h
      next hm2 => exact Option.noConfusion h
      next dc2 r3 hm2 =>
        split at h
        next hx2 => exact Option.noConfusion h
        next r4 hx2 =>
          split at h
          next hm3 => exact Option.noConfusion h
          next dc3 r5 hm3 =>
            split at h
            next hm4 => exact Option.noConfusion h
            next r6 hm4 =>
              split at h
              next hm5 => exact Option.noConfusion h
              next t1g r7 hm5 =>
                split at h
                next hx3 => exact Option.noConfusion h
                next r8 hx3 =>
                  split at h
                  next hm6 => exact Option.noConfusion h
                  next t2g r9 hm6 =>
                    split at h
                    next hm7 => exact Option.noConfusion h
                    next r10 hm7 =>
                      split at h
                      next hm8 => exact Option.noConfusion h
                      next xg hm8 =>
                        injection h with h2
                        injection h2 with hg1 h3
                        injection h3 with ht1 h4
                        injection h4 with ht2 hx
                        subst hg1
                        subst ht1
                        subst ht2
                        subst hx
                        obtain ⟨he1, hl1, hd1⟩ := takeDigitsN_sound 4 cs dc1 r1 hm1
                        have hr1 : r1 = '-' :: r2 := expectChar_sound '-' r1 r2 hx1
                        obtain ⟨he2, hl2, hd2⟩ := takeDigitsN_sound 2 r2 dc2 r3 hm2
                        have hr3 : r3 = '-' :: r4 := expectChar_sound '-' r3 r4 hx2
                        obtain ⟨he3, hl3, hd3⟩ := takeDigitsN_sound 2 r4 dc3 r5 hm3
                        obtain ⟨w1, hw1e, hw1n, hw1s⟩ := dropSpaces1_sound r5 r6 hm4
                        obtain ⟨he5, hl5, hd5⟩ := takeDigitsN_sound 4 r6 t1g r7 hm5
                        have hr7 : r7 = '-' :: r8 := expectChar_sound '-' r7 r8 hx3
                        obtain ⟨he6, hl6, hd6⟩ := takeDigitsN_sound 4 r8 t2g r9 hm6
                        obtain ⟨w2, hw2e, hw2n, hw2s⟩ := dropSpaces1_sound r9 r10 hm7
                        obtain ⟨hor, hxn, hxnl⟩ := lastLineGroup_sound r10 xg hm8
                        have hr10 : r10 ≠ [] := by
                          rcases hor with hor | hor
                          · rw [hor]; exact hxn
                          · rw [hor]; exact ne_nil_append _ _ (by simp)
                        have hdecomp : cs =
                            dc1 ++ '-' :: (dc2 ++ '-' :: (dc3 ++
                              (w1 ++ (t1g ++ '-' :: (t2g ++ (w2 ++ r10)))))) := by
                          rw [he1, hr1, he2, hr3, he3, hw1e, he5, hr7, he6, hw2e]
                        have hxeq : r10 = xg := by
                          rcases hor with hor | hor
                          · exact hor
                          · exfalso
                            have hge : cs.getLast? = r10.getLast? := by
                              rw [hdecomp]
                              exact getLast?_decomp dc1 dc2 dc3 w1 t1g t2g w2 r10 hr10
                            have hnl2 : r10.getLast? = some '\n' := by
                              rw [hor, List.getLast?_append_of_ne_nil _ (by simp)]
                              rfl
                            have := hlast '\n' (by rw [hge, hnl2])
                            exact absurd this (by decide)
                        subst hxeq
                        exact ⟨dc1, dc2, dc3, w1, w2, hdecomp, rfl, hl1, hd1, hl2, hd2,
                          hl3, hd3, hl5, hd5, hl6, hd6, hw1n, hw1s, hw2n, hw2s,
                          hxn, hxnl⟩

/-- Closed-form evaluation of the date strptime on a ten-character group
of the regex's shape. -/
theorem dateParse_chars (a b c d e f g k : Char)
    (ha : a.isDigit = true) (hb : b.isDigit = true) (hc : c.isDigit = true)
    (hd : d.isDigit = true) (he : e.isDigit = true) (hf : f.isDigit = true)
    (hg : g.isDigit = true) (hk : k.isDigit = true) :
    dateParse [a, b, c, d, '-', e, f, '-', g, k] =
      (if okM2 (10 * d2n e + d2n f) && okD2 (10 * d2n g + d2n k) &&
          decide (1 ≤ digitsVal [a, b, c, d]) &&
          decide (10 * d2n g + d2n k ≤
            daysInMonth (digitsVal [a, b, c, d]) (10 * d2n e + d2n f))
        then some ⟨digitsVal [a, b, c, d], 10 * d2n e + d2n f, 10 * d2n g + d2n k⟩
        else none) := by
  cases h1 : okM2 (10 * d2n e + d2n f) <;>
    cases h2 : okD2 (10 * d2n g + d2n k) <;>
      cases h3 : decide (1 ≤ digitsVal [a, b, c, d]) <;>
        cases h4 : decide (10 * d2n g + d2n k ≤
            daysInMonth (digitsVal [a, b, c, d]) (10 * d2n e + d2n f)) <;>
          simp [dateParse, year4, lit, field2, altOr, ha, hb, hc, hd, he, hf, hg, hk,
            h1, h2, h3, h4, dig_ne_dash f hf, ite_self]

/-- Closed-form evaluation of `hhmmOfGroup` on four digit characters. -/
theorem hhmmOfGroup_chars (a b c d : Char)
    (ha : a.isDigit = true) (hb : b.isDigit = true) (hc : c.isDigit = true)
    (hd : d.isDigit = true) :
    hhmmOfGroup [a, b, c, d] =
      (if decide (10 * d2n a + d2n b ≤ 23) && decide (10 * d2n c + d2n d ≤ 59)
       then some ⟨10 * d2n a + d2n b, 10 * d2n c + d2n d, 0⟩
       else none) := by
  have hlt1 : 10 * d2n a + d2n b < 100 := by
    have := d2n_le9 a ha
    have := d2n_le9 b hb
    omega
  have hlt2 : 10 * d2n c + d2n d < 100 := by
    have := d2n_le9 c hc
    have := d2n_le9 d hd
    omega
  have e1 := val2_pad (10 * d2n a + d2n b) hlt1
  have e2 := val2_pad (10 * d2n c + d2n d) hlt2
  cases h23 : decide (10 * d2n a + d2n b ≤ 23) <;>
    cases h59 : decide (10 * d2n c + d2n d ≤ 59) <;>
      simp [hhmmOfGroup, hmParse, hmTail, altOr, pad2, List.cons_append, List.nil_append,
        isDigit_digitChar, digitChar_ne_colon, e1, e2, h23, h59]

/-- The set of names the code can accept: after stripping, the name
decomposes under the relaxed pattern (whitespace runs as separators,
newline-free nonempty extra) with a valid calendar date and in-range
times. -/
def codeNameOK (name : String) : Prop :=
  ∃ (dc1 dc2 dc3 t1 t2 w1 w2 extra : List Char),
    pyStrip name.data =
      dc1 ++ '-' :: (dc2 ++ '-' :: (dc3 ++ (w1 ++ (t1 ++ '-' :: (t2 ++ (w2 ++ extra)))))) ∧
    dc1.length = 4 ∧ allDigitsP dc1 ∧ dc2.length = 2 ∧ allDigitsP dc2 ∧
    dc3.length = 2 ∧ allDigitsP dc3 ∧
    t1.length = 4 ∧ allDigitsP t1 ∧ t2.length = 4 ∧ allDigitsP t2 ∧
    w1 ≠ [] ∧ allSpaceP w1 ∧ w2 ≠ [] ∧ allSpaceP w2 ∧
    extra ≠ [] ∧ extra.contains '\n' = false ∧
    validDate (digitsVal dc1) (digitsVal dc2) (digitsVal dc3) ∧
    digitsVal (t1.take 2) ≤ 23 ∧ digitsVal (t1.drop 2) ≤ 59 ∧
    digitsVal (t2.take 2) ≤ 23 ∧ digitsVal (t2.drop 2) ≤ 59

/-- C5 as amended: `parse_tab_name` accepts only names that, after
stripping surrounding whitespace, match the relaxed pattern (whitespace
runs as separators) with a valid calendar date and in-range times — so
every other name fails — and every failure is the `ValueError` that
`main` reports as the format error. -/
theorem c5_rejection (name : String) :
    ((parse_tab_name name).isOk = true → codeNameOK name) ∧
    (∀ e, parse_tab_name name = Except.error e → ∃ i, e = PyErr.valueError i) := by
  constructor
  · intro hok
    unfold parse_tab_name at hok
    split at hok
    next hm => simp [Except.isOk, Except.toBool] at hok
    next dg t1g t2g xg hm =>
      split at hok
      next hdp => simp [Except.isOk, Except.toBool] at hok
      next dt hdp =>
        split at hok
        next hh1 => simp [Except.isOk, Except.toBool] at hok
        next st hh1 =>
          split at hok
          next hh2 => simp [Except.isOk, Except.toBool] at hok
          next en hh2 =>
            obtain ⟨dc1, dc2, dc3, w1, w2, hdecomp, hg1, hl1, hd1, hl2, hd2, hl3, hd3,
              hl5, hd5, hl6, hd6, hw1n, hw1s, hw2n, hw2s, hxn, hxnl⟩ :=
              tabNameMatch_sound (pyStrip name.data) dg t1g t2g xg
                (pyStrip_getLast_not_space name.data) hm
            obtain ⟨a, b, c, d, hdc1⟩ := length4 dc1 hl1
            obtain ⟨e, f, hdc2⟩ := length2 dc2 hl2
            obtain ⟨g, k, hdc3⟩ := length2 dc3 hl3
            subst hdc1
            subst hdc2
            subst hdc3
            rw [hg1] at hdp
            simp only [List.cons_append, List.nil_append] at hdp
            rw [dateParse_chars a b c d e f g k (hd1 a (by simp)) (hd1 b (by simp))
              (hd1 c (by simp)) (hd1 d (by simp)) (hd2 e (by simp)) (hd2 f (by simp))
              (hd3 g (by simp)) (hd3 k (by simp))] at hdp
            obtain ⟨p1, q1, u1, v1, ht1⟩ := length4 t1g hl5
            obtain ⟨p2, q2, u2, v2, ht2⟩ := length4 t2g hl6
            subst ht1
            subst ht2
            rw [hhmmOfGroup_chars p1 q1 u1 v1 (hd5 p1 (by simp)) (hd5 q1 (by simp))
              (hd5 u1 (by simp)) (hd5 v1 (by simp))] at hh1
            rw [hhmmOfGroup_chars p2 q2 u2 v2 (hd6 p2 (by simp)) (hd6 q2 (by simp))
              (hd6 u2 (by simp)) (hd6 v2 (by simp))] at hh2
            split at hdp
            next hcond =>
              split at hh1
              next hcond1 =>
                split at hh2
                next hcond2 =>
                  simp only [okM2, okD2, Bool.and_eq_true, decide_eq_true_eq] at hcond
                  simp only [Bool.and_eq_true, decide_eq_true_eq] at hcond1 hcond2
                  have hy4 : digitsVal [a, b, c, d] ≤ 9999 := by
                    have := d2n_le9 a (hd1 a (by simp))
                    have := d2n_le9 b (hd1 b (by simp))
                    have := d2n_le9 c (hd1 c (by simp))
                    have := d2n_le9 d (hd1 d (by simp))
                    simp only [digitsVal, List.foldl]
                    omega
                  refine ⟨[a, b, c, d], [e, f], [g, k], [p1, q1, u1, v1],
                    [p2, q2, u2, v2], w1, w2, xg, hdecomp, rfl, hd1, rfl, hd2, rfl,
                    hd3, rfl, hd5, rfl, hd6, hw1n, hw1s, hw2n, hw2s, hxn, hxnl,
                    ?_, ?_, ?_, ?_, ?_⟩
                  · obtain ⟨⟨⟨hmoA, hmoB⟩, hdyC, hdyD⟩, hyE⟩ := hcond.1
                    have hF := hcond.2
                    have he2 : digitsVal [e, f] = 10 * d2n e + d2n f := val2_eq e f
                    have hg2 : digitsVal [g, k] = 10 * d2n g + d2n k := val2_eq g k
                    exact ⟨hyE, hy4, by rw [he2]; exact hmoA, by rw [he2]; exact hmoB,
                      by rw [hg2]; exact hdyC, by rw [hg2, he2]; exact hF⟩
                  · rw [show [p1, q1, u1, v1].take 2 = [p1, q1] from rfl, val2_eq]
                    exact hcond1.1
                  · rw [show [p1, q1, u1, v1].drop 2 = [u1, v1] from rfl, val2_eq]
                    exact hcond1.2
                  · rw [show [p2, q2, u2, v2].take 2 = [p2, q2] from rfl, val2_eq]
                    exact hcond2.1
                  · rw [show [p2, q2, u2, v2].drop 2 = [u2, v2] from rfl, val2_eq]
                    exact hcond2.2
                next hcond2 => exact Option.noConfusion hh2
              next hcond1 => exact Option.noConfusion hh1
            next hcond => exact Option.noConfusion hdp
  · intro e he
    unfold parse_tab_name at he
    split at he
    next hm =>
      injection he with h2
      exact ⟨_, h2.symm⟩
    next dg t1g t2g xg hm =>
      split at he
      next hdp =>
        injection he with h2
        exact ⟨_, h2.symm⟩
      next dt hdp =>
        split at he
        next hh1 =>
          injection he with h2
          exact ⟨_, h2.symm⟩
        next st hh1 =>
          split at he
          next hh2 =>
            injection he with h2
            exact ⟨_, h2.symm⟩
          next en hh2 => exact Except.noConfusion he

theorem c5_witness : codeNameOK "2025-01-01 0800-0900 X" :=
  (c5_rejection "2025-01-01 0800-0900 X").1 (by decide)

/-! ## C7: the time-block token grammar -/

/-- The token form exactly as the claim words it: `H:MM`, `HH:MM`, or a
bare four-digit `HHMM`, denoting a valid wall-clock time; no token
stripping, minutes always two digits. -/
def claimToken (t : List Char) : Bool :=
  (t.length == 4 && t.all Char.isDigit && decide (digitsVal (t.take 2) ≤ 23) &&
    decide (digitsVal (t.drop 2) ≤ 59)) ||
  (match splitFirst ':' t with
   | none => false
   | some (hp, mp) =>
     !hp.isEmpty && decide (hp.length ≤ 2) && hp.all Char.isDigit &&
     decide (digitsVal hp ≤ 23) &&
     mp.length == 2 && mp.all Char.isDigit && decide (digitsVal mp ≤ 59))

/-- C7 counterexample: the cell `"8:5-9:00"` is accepted (parsing to
08:05–09:00) although its first token is not of the claimed
`H:MM`/`HH:MM`/`HHMM` form, so "accepts exactly when" fails as stated. -/
theorem c7_counterexample :
    claimToken "8:5".data = false ∧
    parse_time_block "8:5-9:00" = Except.ok (⟨8, 5, 0⟩, ⟨9, 0, 0⟩) := by decide

/-- The corrected minute part: after stripping, one digit, or two digits
with value at most 59, and no further colon. -/
def mpOk (mp : List Char) : Bool :=
  !mp.isEmpty && decide (mp.length ≤ 2) && mp.all Char.isDigit &&
  !(mp.contains ':') && (mp.length == 1 || decide (digitsVal mp ≤ 59))

/-- The corrected hour part: one or two digits with value at most 23. -/
def hpOk (hp : List Char) : Bool :=
  !hp.isEmpty && decide (hp.length ≤ 2) && hp.all Char.isDigit &&
  decide (digitsVal hp ≤ 23)

/-- The corrected token grammar on an already-stripped token: a bare
four-digit `HHMM` with valid values, or an hour part, a colon and a
minute part. -/
def specCoreB (s : List Char) : Bool :=
  (s.length == 4 && s.all Char.isDigit && decide (digitsVal (s.take 2) ≤ 23) &&
    decide (digitsVal (s.drop 2) ≤ 59)) ||
  (match splitFirst ':' s with
   | none => false
   | some (hp, mp) => hpOk hp && mpOk mp)

/-- The corrected token grammar: the claim's forms, extended by
single-digit minutes and by stripping the token's surrounding
whitespace. -/
def specToken (t : List Char) : Bool := specCoreB (pyStrip t)

/-- The corrected acceptance condition of `parse_time_block`. -/
def specTimeBlockAccept (v : String) : Bool :=
  !(v == "") &&
  (match splitFirst '-' v.data with
   | none => false
   | some (s, e) => specToken s && specToken e)

theorem beq_symm_false {x y : Char} (h : (x == y) = false) : (y == x) = false := by
  cases hb : y == x with
  | false => rfl
  | true =>
    rw [beq_iff_eq.mp hb] at h
    simp at h

theorem dig_ne_colon (c : Char) (h : c.isDigit = true) : (c == ':') = false := by
  cases hb : c == ':' with
  | false => rfl
  | true =>
    have hc : c = ':' := beq_iff_eq.mp hb
    subst hc
    exact absurd h (by decide)

theorem dig_ne_colon_prop (c : Char) (h : c.isDigit = true) : ¬(':' : Char) = c := by
  intro he
  rw [← he] at h
  exact absurd h (by decide)

theorem dig_not_space (c : Char) (h : c.isDigit = true) : isPySpace c = false := by
  cases hs : isPySpace c with
  | false => rfl
  | true =>
    simp only [isPySpace, Bool.or_eq_true] at hs
    rcases hs with ((((hx | hx) | hx) | hx) | hx) | hx <;>
      (rw [beq_iff_eq.mp hx] at h; exact absurd h (by decide))

theorem splitFirst_eq_none (c : Char) :
    ∀ s : List Char, s.contains c = false → splitFirst c s = none := by
  intro s
  induction s with
  | nil => intro _; rfl
  | cons a t ih =>
    intro h
    simp only [List.contains_cons, Bool.or_eq_false_iff] at h
    simp [splitFirst, beq_symm_false h.1, ih h.2]

theorem splitFirst_some_sound (c : Char) :
    ∀ (s hp mp : List Char), splitFirst c s = some (hp, mp) →
      s = hp ++ c :: mp ∧ hp.contains c = false := by
  intro s
  induction s with
  | nil => intro hp mp h; exact Option.noConfusion h
  | cons a t ih =>
    intro hp mp h
    unfold splitFirst at h
    split at h
    next hac =>
      injection h with h2
      injection h2 with hhp hmp
      subst hhp
      subst hmp
      rw [beq_iff_eq.mp hac]
      exact ⟨rfl, by simp⟩
    next hac =>
      have hac2 : (a == c) = false := by
        cases hb : a == c with
        | false => rfl
        | true => exact absurd hb hac
      cases hsp : splitFirst c t with
      | none => rw [hsp] at h; exact Option.noConfusion h
      | some p =>
        rw [hsp] at h
        injection h with h2
        injection h2 with hhp hmp
        subst hhp
        subst hmp
        obtain ⟨he, hc⟩ := ih p.1 p.2 hsp
        constructor
        · rw [List.cons_append, ← he]
        · simp only [List.contains_cons, Bool.or_eq_false_iff]
          exact ⟨beq_symm_false hac2, hc⟩

theorem splitFirst_isSome_of_contains (c : Char) :
    ∀ s : List Char, s.contains c = true → (splitFirst c s).isSome = true := by
  intro s
  induction s with
  | nil => intro h; simp at h
  | cons a t ih =>
    intro h
    unfold splitFirst
    cases hac : a == c with
    | true => simp
    | false =>
      simp only [List.contains_cons, Bool.or_eq_true] at h
      rcases h with h | h
      · rw [beq_symm_false hac] at h; exact absurd h (by simp)
      · have := ih h
        cases hsp : splitFirst c t with
        | none => rw [hsp] at this; simp at this
        | some p => simp [hac, hsp]

theorem all_false_of_colon_mem (s : List Char) (h : s.contains ':' = true) :
    s.all Char.isDigit = false := by
  cases hall : s.all Char.isDigit with
  | false => rfl
  | true =>
    obtain ⟨a, ha, hbeq⟩ := List.contains_iff_exists_mem_beq.mp h
    have hac : a = ':' := (beq_iff_eq.mp hbeq).symm
    subst hac
    have := List.all_eq_true.mp hall ':' ha
    exact absurd this (by decide)

theorem hmTail_spec (mp : List Char) : (hmTail mp).isSome = mpOk mp := by
  cases mp with
  | nil => rfl
  | cons x t =>
    cases t with
    | nil =>
      cases hx : x.isDigit with
      | true =>
        simp [hmTail, altOr, mpOk, hx, List.contains_cons, dig_ne_colon_prop x hx]
      | false => simp [hmTail, altOr, mpOk, hx]
    | cons y u =>
      cases u with
      | nil =>
        cases hx : x.isDigit with
        | false => simp [hmTail, altOr, mpOk, hx]
        | true =>
          cases hy : y.isDigit with
          | false => simp [hmTail, altOr, mpOk, hx, hy]
          | true =>
            cases hv : decide (10 * d2n x + d2n y ≤ 59) <;>
              simp [hmTail, altOr, mpOk, hx, hy, hv, val2_eq, List.contains_cons,
                dig_ne_colon_prop x hx, dig_ne_colon_prop y hy]
      | cons z rest =>
        have hlen : (decide ((x :: y :: z :: rest).length ≤ 2)) = false :=
          decide_eq_false (by simp)
        simp [hmTail, altOr, mpOk, hlen]

theorem hmParse_no_colon (s : List Char) (h : s.contains ':' = false) :
    hmParse s = none := by
  cases s with
  | nil => rfl
  | cons a t =>
    cases t with
    | nil => rfl
    | cons b u =>
      simp only [List.contains_cons, Bool.or_eq_false_iff] at h
      have hb2 : (b == ':') = false := beq_symm_false h.2.1
      cases u with
      | nil => simp [hmParse, altOr, hb2]
      | cons c v =>
        have h3 := h.2.2
        simp only [List.contains_cons, Bool.or_eq_false_iff] at h3
        have hc2 : (c == ':') = false := beq_symm_false h3.1
        simp [hmParse, altOr, hb2, hc2]

theorem hm_colon_split (hp mp : List Char) (hnc : hp.contains ':' = false) :
    (hmParse (hp ++ ':' :: mp)).isSome = (hpOk hp && mpOk mp) := by
  have hcd : (':' : Char).isDigit = false := by decide
  cases hp with
  | nil =>
    cases mp with
    | nil => simp [hmParse, altOr, hpOk]
    | cons m t =>
      cases t with
      | nil => simp [hmParse, altOr, hpOk, hcd]
      | cons m2 u => simp [hmParse, altOr, hpOk, hcd]
  | cons h1 tp =>
    simp only [List.contains_cons, Bool.or_eq_false_iff] at hnc
    obtain ⟨ha1, htp⟩ := hnc
    cases tp with
    | nil =>
      cases hx : h1.isDigit with
      | false =>
        have hok : hpOk [h1] = false := by simp [hpOk, hx]
        rw [hok, Bool.false_and]
        cases mp with
        | nil => simp [hmParse, hmTail, altOr, hx]
        | cons m t => simp [hmParse, altOr, hx, hcd]
      | true =>
        have h9 := d2n_le9 h1 hx
        have h23 : decide (digitsVal [h1] ≤ 23) = true := by
          have hv1 : digitsVal [h1] = d2n h1 := by simp [digitsVal, List.foldl]
          rw [hv1]
          exact decide_eq_true (by omega)
        have hok : hpOk [h1] = true := by simp [hpOk, hx, h23]
        rw [hok, Bool.true_and]
        cases mp with
        | nil => simp [hmParse, hmTail, altOr, hx, mpOk]
        | cons m t =>
          rw [← hmTail_spec]
          cases hmt : hmTail (m :: t) with
          | none => simp [hmParse, altOr, hx, hcd, hmt]
          | some x => simp [hmParse, altOr, hx, hcd, hmt]
    | cons h2 tp2 =>
      simp only [List.contains_cons, Bool.or_eq_false_iff] at htp
      obtain ⟨ha2, htp2⟩ := htp
      have hb2 : (h2 == ':') = false := beq_symm_false ha2
      cases tp2 with
      | nil =>
        cases hx : h1.isDigit with
        | false =>
          have hok : hpOk [h1, h2] = false := by simp [hpOk, hx]
          rw [hok, Bool.false_and]
          simp [hmParse, altOr, hx, hb2]
        | true =>
          cases hy : h2.isDigit with
          | false =>
            have hok : hpOk [h1, h2] = false := by simp [hpOk, hy]
            rw [hok, Bool.false_and]
            simp [hmParse, altOr, hx, hy, hb2]
          | true =>
            cases hv : decide (10 * d2n h1 + d2n h2 ≤ 23) with
            | false =>
              have hok : hpOk [h1, h2] = false := by simp [hpOk, hx, hy, val2_eq, hv]
              rw [hok, Bool.false_and]
              simp [hmParse, altOr, hx, hy, hv, hb2]
            | true =>
              have hok : hpOk [h1, h2] = true := by simp [hpOk, hx, hy, val2_eq, hv]
              rw [hok, Bool.true_and, ← hmTail_spec]
              cases hmt : hmTail mp with
              | none => simp [hmParse, altOr, hx, hy, hv, hmt, hb2]
              | some x => simp [hmParse, altOr, hx, hy, hv, hmt, hb2]
      | cons h3 tp3 =>
        simp only [List.contains_cons, Bool.or_eq_false_iff] at htp2
        have hb3 : (h3 == ':') = false := beq_symm_false htp2.1
        have hlen : (decide ((h1 :: h2 :: h3 :: tp3).length ≤ 2)) = false :=
          decide_eq_false (by simp)
        have hok : hpOk (h1 :: h2 :: h3 :: tp3) = false := by simp [hpOk, hlen]
        rw [hok, Bool.false_and]
        simp [hmParse, altOr, hb2, hb3]

theorem hm_token_core (s : List Char) : (parse_hhmm_core s).isSome = specCoreB s := by
  cases hcol : s.contains ':' with
  | false =>
    have hsf := splitFirst_eq_none ':' s hcol
    cases hlen : s.length == 4 with
    | false =>
      have hg2 : (!(s.contains ':') && (s.length == 4)) = false := by
        simp [hcol, hlen]
      have hcore : parse_hhmm_core s = hmParse s := by
        unfold parse_hhmm_core
        rw [hg2]
        rfl
      rw [hcore, hmParse_no_colon s hcol]
      simp [specCoreB, hsf, hlen]
    | true =>
      have hlen4 : s.length = 4 := beq_iff_eq.mp hlen
      obtain ⟨a, b, c, d, hs⟩ := length4 s hlen4
      subst hs
      have hsf2 : splitFirst ':' [a, b, c, d] = none := hsf
      have hcol2 := hcol
      simp only [List.contains_cons, Bool.or_eq_false_iff] at hcol2
      have hb2 : (b == ':') = false := beq_symm_false hcol2.2.1
      have hg : (!(List.contains [a, b, c, d] ':') && ([a, b, c, d].length == 4)) = true := by
        rw [hcol]
        rfl
      have hcore : parse_hhmm_core [a, b, c, d] = hmParse [a, b, ':', c, d] := by
        unfold parse_hhmm_core
        rw [hg]
        rfl
      have ht2 : ([a, b, c, d].take 2) = [a, b] := rfl
      have hd2 : ([a, b, c, d].drop 2) = [c, d] := rfl
      rw [hcore]
      cases hxa : a.isDigit <;> cases hxb : b.isDigit <;>
        cases hxc : c.isDigit <;> cases hxd : d.isDigit <;>
          cases hv : decide (10 * d2n a + d2n b ≤ 23) <;>
            cases hw : decide (10 * d2n c + d2n d ≤ 59) <;>
              simp [hmParse, hmTail, altOr, specCoreB, hsf2, ht2, hd2, hxa, hxb,
                hxc, hxd, hv, hw, val2_eq, hb2]
  | true =>
    have hg : (!(s.contains ':') && (s.length == 4)) = false := by
      rw [hcol]
      rfl
    have hcore : parse_hhmm_core s = hmParse s := by
      unfold parse_hhmm_core
      rw [hg]
      rfl
    have hall := all_false_of_colon_mem s hcol
    have hsm := splitFirst_isSome_of_contains ':' s hcol
    cases hsp : splitFirst ':' s with
    | none =>
      rw [hsp] at hsm
      exact absurd hsm (by simp)
    | some p =>
      obtain ⟨hp, mp⟩ := p
      obtain ⟨he, hnc⟩ := splitFirst_some_sound ':' s hp mp hsp
      have hrhs : specCoreB s = (hpOk hp && mpOk mp) := by
        simp [specCoreB, hsp, hall]
      rw [hcore, hrhs, he]
      exact hm_colon_split hp mp hnc

theorem parse_hhmm_spec (t : List Char) : (parse_hhmm t).isSome = specToken t :=
  hm_token_core (pyStrip t)

theorem parse_time_block_accepts (v : String) :
    (parse_time_block v).isOk = specTimeBlockAccept v := by
  unfold parse_time_block specTimeBlockAccept
  cases hv : v == "" with
  | true => simp [hv, Except.isOk, Except.toBool]
  | false =>
    cases hsp : splitFirst '-' v.data with
    | none => simp [hv, hsp, Except.isOk, Except.toBool]
    | some p =>
      obtain ⟨s, e⟩ := p
      have h1 := parse_hhmm_spec s
      have h2 := parse_hhmm_spec e
      cases hp1 : parse_hhmm s with
      | none =>
        rw [hp1] at h1
        simp [hv, hsp, hp1, Except.isOk, Except.toBool, ← h1]
      | some t1 =>
        rw [hp1] at h1
        cases hp2 : parse_hhmm e with
        | none =>
          rw [hp2] at h2
          simp [hv, hsp, hp1, hp2, Except.isOk, Except.toBool, ← h1, ← h2]
        | some t2 =>
          rw [hp2] at h2
          simp [hv, hsp, hp1, hp2, Except.isOk, Except.toBool, ← h1, ← h2]

theorem timeBlockCoerce_both (c : Cell) (p q : Option Tod)
    (h : timeBlockCoerce c = Except.ok (p, q)) : p.isSome = q.isSome := by
  unfold timeBlockCoerce at h
  split at h
  · cases hp : parse_time_block (pyStr c) with
    | error e =>
      rw [hp] at h
      simp only [Except.map] at h
      exact Except.noConfusion h
    | ok pr =>
      rw [hp] at h
      simp only [Except.map] at h
      injection h with h2
      injection h2 with ha hb
      simp [← ha, ← hb]
  · injection h with h2
    injection h2 with ha hb
    simp [← ha, ← hb]

/-- C7 (corrected): `parse_time_block` accepts a present cell exactly
when the stripped text splits at its first dash into two tokens that,
after stripping, are a valid bare four-digit `HHMM` or an `H:M`, `H:MM`,
`HH:M` or `HH:MM` (single-digit minutes are also accepted, beyond the
claimed `H:MM`/`HH:MM`/`HHMM` forms); `"0800"` and `"08:00"` parse to
the identical time, `"25:00"`, `"0861"` and a dashless block fail with
the `ValueError` that becomes `CoercionError`; and in every produced
record the two time-block fields are both set or both null. -/
theorem c7_time_block :
    (∀ v : String, (parse_time_block v).isOk = specTimeBlockAccept v) ∧
    parse_hhmm "0800".data = some ⟨8, 0, 0⟩ ∧
    parse_hhmm "08:00".data = some ⟨8, 0, 0⟩ ∧
    parse_hhmm "25:00".data = none ∧
    parse_hhmm "0861".data = none ∧
    parse_time_block "08000900" =
      Except.error (PyErr.valueError (ErrInfo.tbFormat "08000900")) ∧
    ∀ (rv : Nat → Cell) (tab : TabW) (title label : String) (r : HeatRecord),
      coerceRow rv tab title label = Except.ok r →
      r.time_block_start.isSome = r.time_block_end.isSome := by
  refine ⟨parse_time_block_accepts, by decide, by decide, by decide, by decide,
    by decide, ?_⟩
  intro rv tab title label r h
  obtain ⟨-, -, -, -, -, htb, -, -, -, -, -, -, -, -, -, -, -, -, -⟩ :=
    coerceRow_ok_fields rv tab title label r h
  exact timeBlockCoerce_both (rv 11) r.time_block_start r.time_block_end htb

theorem c7_witness : recC6.time_block_start.isSome = recC6.time_block_end.isSome :=
  c7_time_block.2.2.2.2.2.2 rvC6 tabW0 "T" "L" recC6 (by decide)

end HeatData
